import Mathlib

/-!
Verification of the Rating Ledger Engine of this repository.

Shallow embedding of the core components in
src/backend/src/services/elo.rs and src/backend/src/services/seasons.rs
(plus the season-creation HTTP handler in src/backend/src/handlers/seasons.rs):
the rating-delta calculator, the dynamic K-factor resolver, the temporal
season-partition assigner, the chronological replay engine, and the season
lifecycle orchestrator.

Modelling conventions:
- f64 values (ratings, K-factors) are modelled as real numbers;
- i32 / i64 / timestamps are modelled as integers, identifiers as naturals;
- Rust Strings are modelled as lists of characters (UTF-8 byte lengths are
  tracked through Char.utf8Size where byte slicing matters);
- the HashMap working state of a replay is modelled as a function
  PlayerId -> Option WorkingStats (all four per-player maps of the source
  share one key set, so one unified map is faithful);
- database tables are lists of row structures; a SQL UPDATE is a map over
  the list, a DELETE is a filter, an INSERT an append;
- fallible operations return Except String; a Rust panic inside the engine
  is modelled as an error value as well (it aborts the transaction).
-/

namespace RatingLedger

abbrev PlayerId := Nat
abbrev SeasonId := Nat
abbrev MatchId := Nat
abbrev GameId := Nat
/-- Timestamps (chrono DateTime values) are modelled as integers. -/
abbrev Timestamp := Int

namespace Elo

/-- EloConfig from src/backend/src/services/elo.rs. -/
structure EloConfig where
  version_name : List Char
  k_factor : ℝ
  starting_elo : ℝ
  base_k_factor : Option ℝ
  new_player_k_bonus : Option ℝ
  new_player_bonus_period : Option ℤ

/-- calculate_dynamic_k_factor from src/backend/src/services/elo.rs:
K = base_k + new_player_k_bonus * e^(-games_played / bonus_period) when the
triple is fully configured with a positive period, else the static k_factor. -/
noncomputable def calculate_dynamic_k_factor (config : EloConfig) (games_played : ℤ) : ℝ :=
  match config.base_k_factor, config.new_player_k_bonus, config.new_player_bonus_period with
  | some base_k, some bonus, some period =>
      if 0 < period then
        base_k + bonus * Real.exp (-(games_played : ℝ) / (period : ℝ))
      else config.k_factor
  | _, _, _ => config.k_factor

/-- GameWinner from src/backend/src/services/elo.rs. -/
inductive GameWinner where
  | player1 : GameWinner
  | player2 : GameWinner
deriving DecidableEq, Repr

/-- MatchEloChange from src/backend/src/services/elo.rs. -/
structure MatchEloChange where
  game_id : GameId
  player1_id : PlayerId
  player2_id : PlayerId
  player1_elo_before : ℝ
  player1_elo_after : ℝ
  player1_elo_change : ℝ
  player2_elo_before : ℝ
  player2_elo_after : ℝ
  player2_elo_change : ℝ

/-- calculate_match_elo_changes from src/backend/src/services/elo.rs:
replays the games of one match sequentially, each game using the ratings
updated by the previous one, with both K-factors held fixed. -/
noncomputable def calculate_match_elo_changes
    (player1_id player2_id : PlayerId)
    (player1_starting_elo player2_starting_elo : ℝ)
    (games : List (GameId × GameWinner))
    (player1_k_factor player2_k_factor : ℝ) : List MatchEloChange :=
  match games with
  | [] => []
  | (game_id, winner) :: rest =>
      let expected_p1 : ℝ :=
        1 / (1 + (10 : ℝ) ^ ((player2_starting_elo - player1_starting_elo) / 400))
      let expected_p2 : ℝ := 1 - expected_p1
      let scores : ℝ × ℝ :=
        match winner with
        | GameWinner.player1 => (1, 0)
        | GameWinner.player2 => (0, 1)
      let p1_change := player1_k_factor * (scores.1 - expected_p1)
      let p2_change := player2_k_factor * (scores.2 - expected_p2)
      let p1_after := player1_starting_elo + p1_change
      let p2_after := player2_starting_elo + p2_change
      { game_id := game_id
        player1_id := player1_id
        player2_id := player2_id
        player1_elo_before := player1_starting_elo
        player1_elo_after := p1_after
        player1_elo_change := p1_change
        player2_elo_before := player2_starting_elo
        player2_elo_after := p2_after
        player2_elo_change := p2_change } ::
        calculate_match_elo_changes player1_id player2_id p1_after p2_after rest
          player1_k_factor player2_k_factor

end Elo

namespace Seasons

/-- calculate_dynamic_k_factor from src/backend/src/services/seasons.rs
(the copy taking the configuration fields as explicit arguments). -/
noncomputable def calculate_dynamic_k_factor
    (k_factor : ℝ) (base_k_factor new_player_k_bonus : Option ℝ)
    (new_player_bonus_period : Option ℤ) (games_played : ℤ) : ℝ :=
  match base_k_factor, new_player_k_bonus, new_player_bonus_period with
  | some base_k, some bonus, some period =>
      if 0 < period then
        base_k + bonus * Real.exp (-(games_played : ℝ) / (period : ℝ))
      else k_factor
  | _, _, _ => k_factor

end Seasons

/-- seasons table row (struct Season in src/backend/src/services/seasons.rs). -/
structure Season where
  id : SeasonId
  name : List Char
  description : Option (List Char)
  start_date : Timestamp
  starting_elo : ℝ
  k_factor : ℝ
  base_k_factor : Option ℝ
  new_player_k_bonus : Option ℝ
  new_player_bonus_period : Option ℤ
  elo_version : Option (List Char)
  is_active : Bool
  created_at : Timestamp

/-- players table row (the fields the engine reads/writes). -/
structure PlayerRow where
  id : PlayerId
  current_elo : ℝ
  is_active : Bool

/-- player_seasons table row (struct PlayerSeasonStats). -/
structure PlayerSeasonRow where
  player_id : PlayerId
  season_id : SeasonId
  current_elo : ℝ
  games_played : ℤ
  wins : ℤ
  losses : ℤ
  is_included : Bool

/-- matches table row (the columns the engine touches). -/
structure MatchRow where
  id : MatchId
  player1_id : PlayerId
  player2_id : PlayerId
  submitted_at : Timestamp
  season_id : Option SeasonId

/-- games table row; player1_id is always the winner, player2_id the loser. -/
structure GameRow where
  id : GameId
  match_id : MatchId
  player1_id : PlayerId
  player2_id : PlayerId
  played_at : Timestamp
  season_id : Option SeasonId

/-- elo_history table row (the Rating-History ledger). -/
structure EloHistoryRow where
  player_id : PlayerId
  game_id : GameId
  elo_before : ℝ
  elo_after : ℝ
  elo_version : List Char
  season_id : Option SeasonId
  created_at : Timestamp

/-- elo_configurations table row. -/
structure EloConfigurationRow where
  version_name : List Char
  k_factor : ℝ
  starting_elo : ℝ
  base_k_factor : Option ℝ
  new_player_k_bonus : Option ℝ
  new_player_bonus_period : Option ℤ

/-- The database state visible to the Rating Ledger Engine. -/
structure Db where
  players : List PlayerRow
  seasons : List Season
  player_seasons : List PlayerSeasonRow
  match_rows : List MatchRow
  games : List GameRow
  elo_history : List EloHistoryRow
  elo_configurations : List EloConfigurationRow

/-- get_season_by_id from src/backend/src/services/seasons.rs. -/
def get_season_by_id (db : Db) (season_id : SeasonId) : Option Season :=
  db.seasons.find? (fun s => s.id == season_id)

/-- The SQL subquery SELECT s.id FROM seasons s WHERE s.start_date <= t
ORDER BY s.start_date DESC LIMIT 1 used by reassign_games_to_seasons:
some season with maximal start_date still at or before t. -/
def latest_season_at : List Season → Timestamp → Option Season
  | [], _ => none
  | s :: rest, t =>
      match latest_season_at rest t with
      | none => if s.start_date ≤ t then some s else none
      | some b =>
          if s.start_date ≤ t ∧ b.start_date < s.start_date then some s else some b

/-- The WHERE clause of the matches UPDATE in reassign_games_to_seasons:
a row is written when an owning season exists and the stored assignment is
NULL or differs from the computed one. -/
def match_needs_write (seasons : List Season) (m : MatchRow) : Bool :=
  match latest_season_at seasons m.submitted_at with
  | none => false
  | some s => m.season_id.isNone || (m.season_id != some s.id)

/-- The per-row effect of the matches UPDATE in reassign_games_to_seasons. -/
def reassign_match_row (seasons : List Season) (m : MatchRow) : MatchRow :=
  if match_needs_write seasons m then
    { m with season_id := (latest_season_at seasons m.submitted_at).map Season.id }
  else m

/-- SQL three-valued inequality on nullable season ids: NULL on either side
makes the comparison unknown, which a WHERE clause treats as false. -/
def sql_neq (a b : Option SeasonId) : Bool :=
  match a, b with
  | some x, some y => x != y
  | _, _ => false

/-- The WHERE clause of the games UPDATE in reassign_games_to_seasons,
joined against the (already updated) matches table. -/
def game_needs_write (ms : List MatchRow) (g : GameRow) : Bool :=
  match ms.find? (fun m => m.id == g.match_id) with
  | none => false
  | some m => g.season_id.isNone || sql_neq g.season_id m.season_id

/-- The per-row effect of the games UPDATE in reassign_games_to_seasons. -/
def reassign_game_row (ms : List MatchRow) (g : GameRow) : GameRow :=
  match ms.find? (fun m => m.id == g.match_id) with
  | none => g
  | some m =>
      if g.season_id.isNone || sql_neq g.season_id m.season_id then
        { g with season_id := m.season_id }
      else g

/-- reassign_games_to_seasons from src/backend/src/services/seasons.rs:
batch-reassigns every match to the season with maximal start_date at or
before its submitted_at (rows with no such season are only logged), then
makes the games inherit their parent match's season; returns the updated
state together with the number of rows the two UPDATEs reported written. -/
def reassign_games_to_seasons (db : Db) : Db × ℤ :=
  let match_rows' := db.match_rows.map (reassign_match_row db.seasons)
  let matches_reassigned := (db.match_rows.filter (match_needs_write db.seasons)).length
  let games' := db.games.map (reassign_game_row match_rows')
  let games_reassigned := (db.games.filter (game_needs_write match_rows')).length
  ({ db with match_rows := match_rows', games := games' },
    (matches_reassigned : ℤ) + (games_reassigned : ℤ))

/-- Total UTF-8 byte length of a Rust String modelled as a char list
(String::len in Rust counts bytes, not characters). -/
def utf8Len (s : List Char) : Nat := (s.map Char.utf8Size).sum

/-- Rust byte slicing s[..n]: some prefix when byte offset n falls on a
character boundary within the string, none when the slice panics (offset
inside a multi-byte character, or past the end). -/
def slice_to_byte : List Char → Nat → Option (List Char)
  | _, 0 => some []
  | [], _ + 1 => none
  | c :: rest, n + 1 =>
      if c.utf8Size ≤ n + 1 then
        (slice_to_byte rest (n + 1 - c.utf8Size)).map (fun l => c :: l)
      else none

/-- The elo_version string computation shared by recalculate_season_elo and
record_game_result in src/backend/src/services/seasons.rs: the season's
elo_version reference when present, otherwise the season name, byte-truncated
to 50 when longer (a slice that panics is modelled as none). -/
def derive_elo_version_string (season : Season) : Option (List Char) :=
  match season.elo_version with
  | some v => some v
  | none =>
      if utf8Len season.name ≤ 50 then some season.name
      else slice_to_byte season.name 50

/-- Stable ascending insertion by an integer key (models ORDER BY key ASC;
ties keep their relative order, as an index scan would). -/
def insert_sorted {α : Type} (key : α → Timestamp) (x : α) : List α → List α
  | [] => [x]
  | y :: rest =>
      if key y ≤ key x then y :: insert_sorted key x rest
      else x :: y :: rest

/-- Sort by an integer key, ascending (models ORDER BY key ASC). -/
def sort_by_time {α : Type} (key : α → Timestamp) : List α → List α
  | [] => []
  | x :: rest => insert_sorted key x (sort_by_time key rest)

/-- SELECT ... FROM matches WHERE season_id = $1 ORDER BY submitted_at ASC. -/
def season_match_rows (db : Db) (season_id : SeasonId) : List MatchRow :=
  sort_by_time MatchRow.submitted_at
    (db.match_rows.filter (fun m => m.season_id == some season_id))

/-- SELECT ... FROM games WHERE match_id = $1 ORDER BY played_at ASC. -/
def match_games (db : Db) (match_id : MatchId) : List GameRow :=
  sort_by_time GameRow.played_at (db.games.filter (fun g => g.match_id == match_id))

/-- The configuration-resolution step of recalculate_season_elo: when the
season references a named configuration, load it from elo_configurations,
falling back (with a warning) to the season's own embedded parameters if the
reference is missing; otherwise use the season's own parameters. Returns
(k_factor, base_k_factor, new_player_k_bonus, new_player_bonus_period,
starting_elo). -/
def resolve_elo_config (db : Db) (season : Season) :
    ℝ × Option ℝ × Option ℝ × Option ℤ × ℝ :=
  match season.elo_version with
  | some v =>
      match db.elo_configurations.find? (fun c => c.version_name == v) with
      | some c =>
          (c.k_factor, c.base_k_factor, c.new_player_k_bonus,
            c.new_player_bonus_period, c.starting_elo)
      | none =>
          (season.k_factor, season.base_k_factor, season.new_player_k_bonus,
            season.new_player_bonus_period, season.starting_elo)
  | none =>
      (season.k_factor, season.base_k_factor, season.new_player_k_bonus,
        season.new_player_bonus_period, season.starting_elo)

/-- The in-memory working state of one replay invocation for one player.
The source keeps four HashMaps (elo, games played, wins, losses); they are
created with one shared key set and only existing keys are ever updated, so
one map to a record of the four values is a faithful model. -/
structure WorkingStats where
  elo : ℝ
  games_played : ℤ
  wins : ℤ
  losses : ℤ

/-- The per-replay working state: none marks a player who is not a member of
the season (absent from the maps). -/
abbrev PState := PlayerId → Option WorkingStats

/-- Initial working state of recalculate_season_elo: every player with a
player_seasons row of the season starts at the resolved starting rating with
zeroed counters. -/
def init_state (db : Db) (season_id : SeasonId) (starting_elo : ℝ) : PState :=
  fun p =>
    if db.player_seasons.any (fun r => r.season_id == season_id && r.player_id == p) then
      some { elo := starting_elo, games_played := 0, wins := 0, losses := 0 }
    else none

/-- player_elos.insert for a key already present (the source only inserts
for players that passed the membership check). -/
def set_elo (st : PState) (p : PlayerId) (elo : ℝ) : PState :=
  fun q => if q = p then (st q).map (fun w => { w with elo := elo }) else st q

/-- Increment games_played and wins of the winner of one game. -/
def bump_winner (st : PState) (p : PlayerId) : PState :=
  fun q =>
    if q = p then
      (st q).map (fun w =>
        { w with games_played := w.games_played + 1, wins := w.wins + 1 })
    else st q

/-- Increment games_played and losses of the loser of one game. -/
def bump_loser (st : PState) (p : PlayerId) : PState :=
  fun q =>
    if q = p then
      (st q).map (fun w =>
        { w with games_played := w.games_played + 1, losses := w.losses + 1 })
    else st q

/-- The per-game counter updates of the replay loop: the game's player1_id
is the winner; the match's other participant is the loser. -/
def bump_game_stats (m : MatchRow) (st : PState) (g : GameRow) : PState :=
  if g.player1_id = m.player1_id then
    bump_loser (bump_winner st m.player1_id) m.player2_id
  else
    bump_loser (bump_winner st m.player2_id) m.player1_id

/-- Context held fixed across one replay invocation: the target season, the
derived version tag, and the resolved rating configuration. -/
structure ReplayCtx where
  season_id : SeasonId
  tag : List Char
  k_factor : ℝ
  base_k_factor : Option ℝ
  new_player_k_bonus : Option ℝ
  new_player_bonus_period : Option ℤ

/-- The two elo_history INSERTs per replayed game: one row per participant,
carrying rating-before/after, the version tag, the season reference and the
game's timestamp. -/
def emit_rows (ctx : ReplayCtx) :
    List (Elo.MatchEloChange × GameRow) → List EloHistoryRow
  | [] => []
  | (c, g) :: rest =>
      { player_id := c.player1_id, game_id := c.game_id,
        elo_before := c.player1_elo_before, elo_after := c.player1_elo_after,
        elo_version := ctx.tag, season_id := some ctx.season_id,
        created_at := g.played_at } ::
      { player_id := c.player2_id, game_id := c.game_id,
        elo_before := c.player2_elo_before, elo_after := c.player2_elo_after,
        elo_version := ctx.tag, season_id := some ctx.season_id,
        created_at := g.played_at } ::
      emit_rows ctx rest

/-- One iteration of the match loop of recalculate_season_elo: a match with
no games, or with a participant who is not a season member, is skipped with
a warning; otherwise both K-factors are resolved once from the pre-match
games-played counts, the games are replayed sequentially, two ledger rows
are emitted per game, the per-game counters are bumped, and the final
ratings are stored back into the working state. -/
noncomputable def process_match (db : Db) (ctx : ReplayCtx)
    (st : PState) (hist : List EloHistoryRow) (m : MatchRow) :
    PState × List EloHistoryRow :=
  let games := match_games db m.id
  if games.isEmpty then (st, hist)
  else
    match st m.player1_id, st m.player2_id with
    | some w1, some w2 =>
        let player1_k := Seasons.calculate_dynamic_k_factor ctx.k_factor
          ctx.base_k_factor ctx.new_player_k_bonus ctx.new_player_bonus_period
          w1.games_played
        let player2_k := Seasons.calculate_dynamic_k_factor ctx.k_factor
          ctx.base_k_factor ctx.new_player_k_bonus ctx.new_player_bonus_period
          w2.games_played
        let game_winners := games.map (fun g =>
          (g.id, if g.player1_id = m.player1_id then Elo.GameWinner.player1
            else Elo.GameWinner.player2))
        let elo_changes := Elo.calculate_match_elo_changes m.player1_id
          m.player2_id w1.elo w2.elo game_winners player1_k player2_k
        let new_rows := emit_rows ctx (elo_changes.zip games)
        let st1 := games.foldl (bump_game_stats m) st
        let st2 :=
          match elo_changes.getLast? with
          | some lc =>
              set_elo (set_elo st1 m.player1_id lc.player1_elo_after)
                m.player2_id lc.player2_elo_after
          | none => st1
        (st2, hist ++ new_rows)
    | _, _ => (st, hist)

/-- The match loop of recalculate_season_elo. -/
noncomputable def replay_season_matches (db : Db) (ctx : ReplayCtx) :
    PState → List EloHistoryRow → List MatchRow → PState × List EloHistoryRow
  | st, hist, [] => (st, hist)
  | st, hist, m :: rest =>
      let r := process_match db ctx st hist m
      replay_season_matches db ctx r.1 r.2 rest

/-- The full in-memory replay of one season: resolve the configuration,
build the initial working state, and replay the season's matches in
chronological order. -/
noncomputable def replay_result (db : Db) (season_id : SeasonId)
    (season : Season) (tag : List Char) : PState × List EloHistoryRow :=
  match resolve_elo_config db season with
  | (k, base, bonus, period, starting_elo) =>
      replay_season_matches db
        { season_id := season_id, tag := tag, k_factor := k,
          base_k_factor := base, new_player_k_bonus := bonus,
          new_player_bonus_period := period }
        (init_state db season_id starting_elo) [] (season_match_rows db season_id)

/-- recalculate_season_elo from src/backend/src/services/seasons.rs: the
Chronological Replay Engine. Season-not-found is a terminal error; the byte
truncation of the version tag can panic (modelled as an error); a season
with no matches returns success immediately, before the transaction that
deletes the old ledger rows; otherwise the season's ledger rows are deleted,
the season is replayed in memory, the rebuilt rows are inserted and the
player_seasons rows of the season are updated with the final working state,
all within one transaction. The players table is never touched. -/
noncomputable def recalculate_season_elo (db : Db) (season_id : SeasonId) :
    Except String Db :=
  match get_season_by_id db season_id with
  | none => .error "Season not found"
  | some season =>
      match derive_elo_version_string season with
      | none => .error "panic: byte index 50 is not a char boundary"
      | some tag =>
          if (season_match_rows db season_id).isEmpty then .ok db
          else
            let res := replay_result db season_id season tag
            let kept := db.elo_history.filter (fun e => e.season_id != some season_id)
            let ps' := db.player_seasons.map (fun r =>
              if r.season_id == season_id then
                match res.1 r.player_id with
                | some w =>
                    { r with
                      current_elo := w.elo
                      games_played := w.games_played
                      wins := w.wins
                      losses := w.losses }
                | none => r
              else r)
            .ok { db with elo_history := kept ++ res.2, player_seasons := ps' }

/-- The loop body of recalculate_seasons_from: recalculate each listed
season in order, threading the database state, stopping at the first error. -/
noncomputable def recalculate_seasons_list : Db → List SeasonId → Except String Db
  | db, [] => .ok db
  | db, sid :: rest =>
      match recalculate_season_elo db sid with
      | .error e => .error e
      | .ok db' => recalculate_seasons_list db' rest

/-- recalculate_seasons_from from src/backend/src/services/seasons.rs:
recalculate every season starting at or after from_date, in ascending
start-date order. -/
noncomputable def recalculate_seasons_from (db : Db) (from_date : Timestamp) :
    Except String Db :=
  let seasons := sort_by_time Season.start_date
    (db.seasons.filter (fun s => from_date ≤ s.start_date))
  recalculate_seasons_list db (seasons.map Season.id)

/-- The preceding-season query of delete_season: SELECT * FROM seasons WHERE
start_date < $1 ORDER BY start_date DESC LIMIT 1 — some season with maximal
start_date strictly before d. -/
def latest_season_before : List Season → Timestamp → Option Season
  | [], _ => none
  | s :: rest, d =>
      match latest_season_before rest d with
      | none => if s.start_date < d then some s else none
      | some b =>
          if s.start_date < d ∧ b.start_date < s.start_date then some s else some b

/-- The transactional part of delete_season once a preceding target season
was found: reassign the season's matches and games to the target, delete its
ledger and player_seasons rows, delete the season row. -/
def delete_season_tx (db : Db) (season_id : SeasonId) (target : Season) : Db :=
  { db with
    match_rows := db.match_rows.map (fun m =>
      if m.season_id == some season_id then { m with season_id := some target.id }
      else m)
    games := db.games.map (fun g =>
      if g.season_id == some season_id then { g with season_id := some target.id }
      else g)
    elo_history := db.elo_history.filter (fun e => e.season_id != some season_id)
    player_seasons := db.player_seasons.filter (fun r => r.season_id != season_id)
    seasons := db.seasons.filter (fun s => s.id != season_id) }

/-- The transactional part of delete_season when no preceding season exists
(reachable only when the season owns no matches): delete the ledger,
player_seasons and season rows. -/
def delete_season_tx_no_target (db : Db) (season_id : SeasonId) : Db :=
  { db with
    elo_history := db.elo_history.filter (fun e => e.season_id != some season_id)
    player_seasons := db.player_seasons.filter (fun r => r.season_id != season_id)
    seasons := db.seasons.filter (fun s => s.id != season_id) }

/-- delete_season from src/backend/src/services/seasons.rs: find the
chronologically nearest preceding season; with none and at least one owned
match, abort with a conflict (the transaction rolls back, leaving the state
unchanged); otherwise reassign the season's matches and games to the
preceding season (when one exists), delete its ledger, participation and
season rows in one transaction, then recalculate every season from the
preceding one (or from the deleted season's start when none precedes it). -/
noncomputable def delete_season (db : Db) (season_id : SeasonId) :
    Except String Db :=
  match get_season_by_id db season_id with
  | none => .error "Season not found"
  | some season =>
      match latest_season_before db.seasons season.start_date with
      | some target =>
          recalculate_seasons_from (delete_season_tx db season_id target)
            target.start_date
      | none =>
          let match_count :=
            (db.match_rows.filter (fun m => m.season_id == some season_id)).length
          if 0 < match_count then
            .error "Cannot delete season: no previous season exists to reassign matches to"
          else
            recalculate_seasons_from (delete_season_tx_no_target db season_id)
              season.start_date

/-- Validation constants of src/backend/src/handlers/seasons.rs. -/
def MAX_SEASON_NAME_LENGTH : Nat := 100

/-- Maximum description byte length accepted by the handler. -/
def MAX_DESCRIPTION_LENGTH : Nat := 500

/-- Minimum K-factor accepted by the handler. -/
def MIN_K_FACTOR : ℝ := 1

/-- Maximum K-factor accepted by the handler. -/
def MAX_K_FACTOR : ℝ := 100

/-- Minimum starting rating accepted by the handler. -/
def MIN_STARTING_ELO : ℝ := 100

/-- Maximum starting rating accepted by the handler. -/
def MAX_STARTING_ELO : ℝ := 3000

/-- CreateSeasonRequest from src/backend/src/handlers/seasons.rs. -/
structure CreateSeasonRequest where
  name : List Char
  description : Option (List Char)
  start_date : Timestamp
  starting_elo : ℝ
  k_factor : ℝ
  base_k_factor : Option ℝ
  new_player_k_bonus : Option ℝ
  new_player_bonus_period : Option ℤ
  elo_version : Option (List Char)
  player_ids : Option (List PlayerId)

/-- get_season_by_name from src/backend/src/services/seasons.rs. -/
def get_season_by_name (db : Db) (name : List Char) : Option Season :=
  db.seasons.find? (fun s => s.name == name)

/-- Rust str::trim on the char-list model of a String. -/
def trim_chars (s : List Char) : List Char :=
  ((s.dropWhile Char.isWhitespace).reverse.dropWhile Char.isWhitespace).reverse

/-- One INSERT of initialize_season_players / initialize_season_with_players:
create the player_seasons row at the season's starting rating unless the
(player, season) pair already has one (is_included takes the column's
default, true). -/
def insert_player_season (db : Db) (season : Season) (pid : PlayerId) : Db :=
  if db.player_seasons.any (fun r => r.player_id == pid && r.season_id == season.id) then
    db
  else
    { db with
      player_seasons := db.player_seasons ++
        [{ player_id := pid, season_id := season.id,
           current_elo := season.starting_elo, games_played := 0,
           wins := 0, losses := 0, is_included := true }] }

/-- initialize_season_players from src/backend/src/services/seasons.rs:
create player_seasons rows for every currently-active player (the returned
insert count of the source is only logged and is omitted here). -/
def initialize_season_players (db : Db) (season_id : SeasonId) : Except String Db :=
  match get_season_by_id db season_id with
  | none => .error "RowNotFound"
  | some season =>
      .ok ((db.players.filter (fun p => p.is_active)).foldl
        (fun acc p => insert_player_season acc season p.id) db)

/-- initialize_season_with_players from src/backend/src/services/seasons.rs:
create player_seasons rows for the listed players, skipping ids with no
players row (the source reads is_active but only uses row existence). -/
def initialize_season_with_players (db : Db) (season_id : SeasonId)
    (player_ids : List PlayerId) : Except String Db :=
  match get_season_by_id db season_id with
  | none => .error "RowNotFound"
  | some season =>
      .ok (player_ids.foldl
        (fun acc pid =>
          if acc.players.any (fun p => p.id == pid) then
            insert_player_season acc season pid
          else acc) db)

/-- cleanup_season from src/backend/src/services/seasons.rs: the explicit
compensating rollback deleting a half-created season and its dependent rows. -/
def cleanup_season (db : Db) (season_id : SeasonId) : Db :=
  { db with
    player_seasons := db.player_seasons.filter (fun r => r.season_id != season_id)
    elo_history := db.elo_history.filter (fun e => e.season_id != some season_id)
    seasons := db.seasons.filter (fun s => s.id != season_id) }

/-- create_season from src/backend/src/services/seasons.rs: service-level
validation, then insert-and-activate, player initialization, global
reassignment and recalculation, with compensating deletes on failure.
new_season_id stands for the database-generated row id; created_at is the
database-side default, modelled as 0. The player-initialization and
reassignment steps only fail on infrastructure errors, which are outside
this model, so their compensation paths are unreachable here; the
recalculation step can fail and triggers cleanup_season. -/
noncomputable def create_season (db : Db) (req : CreateSeasonRequest)
    (created_by new_season_id : Nat) : Db × Except String Season :=
  let trimmed_name := trim_chars req.name
  if trimmed_name.isEmpty then (db, .error "Season name cannot be empty")
  else if 255 < utf8Len trimmed_name then
    (db, .error "Season name cannot exceed 255 characters")
  else if req.starting_elo < 0 then (db, .error "Starting ELO cannot be negative")
  else if 5000 < req.starting_elo then (db, .error "Starting ELO cannot exceed 5000")
  else if req.k_factor ≤ 0 then (db, .error "K-factor must be positive")
  else if 100 < req.k_factor then
    (db, .error "K-factor cannot exceed 100 (unreasonably high)")
  else if (match req.base_k_factor with
      | some base_k => decide (base_k ≤ 0) || decide ((100 : ℝ) < base_k)
      | none => false) then
    (db, .error "Base K-factor out of range")
  else if (match req.new_player_k_bonus with
      | some bonus => decide (bonus < 0) || decide ((100 : ℝ) < bonus)
      | none => false) then
    (db, .error "New player K-bonus out of range")
  else if (match req.new_player_bonus_period with
      | some period => decide (period < 0) || decide ((1000 : ℤ) < period)
      | none => false) then
    (db, .error "New player bonus period out of range")
  else
    let season : Season :=
      { id := new_season_id, name := trimmed_name, description := req.description,
        start_date := req.start_date, starting_elo := req.starting_elo,
        k_factor := req.k_factor, base_k_factor := req.base_k_factor,
        new_player_k_bonus := req.new_player_k_bonus,
        new_player_bonus_period := req.new_player_bonus_period,
        elo_version := req.elo_version, is_active := true, created_at := 0 }
    let db1 : Db :=
      { db with seasons := db.seasons.map (fun s => { s with is_active := false })
          ++ [season] }
    let initialized :=
      match req.player_ids with
      | some ids => initialize_season_with_players db1 season.id ids
      | none => initialize_season_players db1 season.id
    match initialized with
    | .error e =>
        ({ db1 with seasons := db1.seasons.filter (fun s => s.id != season.id) },
          .error e)
    | .ok db2 =>
        let db3 := (reassign_games_to_seasons db2).1
        match recalculate_seasons_from db3 req.start_date with
        | .error e => (cleanup_season db3 season.id, .error e)
        | .ok db4 => (db4, .ok season)

/-- The validation pipeline of the create_season handler in
src/backend/src/handlers/seasons.rs, in request order: name length,
K-factor range, starting-rating range, description length, dynamic-K triple
completeness, per-component ranges, then the read-only uniqueness and
configuration-existence checks. Returns the first error, none when the
request passes. -/
noncomputable def validate_create_season_request (db : Db)
    (req : CreateSeasonRequest) : Option String :=
  if req.name.isEmpty ∨ MAX_SEASON_NAME_LENGTH < utf8Len req.name then
    some "Season name must be 1-100 characters"
  else if req.k_factor < MIN_K_FACTOR ∨ MAX_K_FACTOR < req.k_factor then
    some "K-factor must be between 1 and 100"
  else if req.starting_elo < MIN_STARTING_ELO ∨ MAX_STARTING_ELO < req.starting_elo then
    some "Starting ELO must be between 100 and 3000"
  else if (match req.description with
      | some d => decide (MAX_DESCRIPTION_LENGTH < utf8Len d)
      | none => false) then
    some "Description must be 500 characters or less"
  else if (req.base_k_factor.isSome || req.new_player_k_bonus.isSome
        || req.new_player_bonus_period.isSome)
      && (!req.base_k_factor.isSome || !req.new_player_k_bonus.isSome
        || !req.new_player_bonus_period.isSome) then
    some "Dynamic K-factor requires all three fields"
  else if (match req.base_k_factor with
      | some base_k => decide (base_k < MIN_K_FACTOR) || decide (MAX_K_FACTOR < base_k)
      | none => false) then
    some "Base K-factor must be between 1 and 100"
  else if (match req.new_player_k_bonus with
      | some bonus => decide (bonus < 0) || decide (MAX_K_FACTOR < bonus)
      | none => false) then
    some "New player K bonus must be between 0 and 100"
  else if (match req.new_player_bonus_period with
      | some period => decide (period ≤ 0)
      | none => false) then
    some "New player bonus period must be positive"
  else if (get_season_by_name db req.name).isSome then
    some "Season name already exists"
  else if (match req.elo_version with
      | some v => !(db.elo_configurations.any (fun c => c.version_name == v))
      | none => false) then
    some "ELO configuration does not exist"
  else none

/-- create_season from src/backend/src/handlers/seasons.rs: run the
validation pipeline; on the first failure return the error with the
database untouched, otherwise call the create_season service. -/
noncomputable def handler_create_season (db : Db) (req : CreateSeasonRequest)
    (admin_id new_season_id : Nat) : Db × Except String Season :=
  match validate_create_season_request db req with
  | some e => (db, .error e)
  | none => create_season db req admin_id new_season_id

/-- Consecutive-entry chaining of a ledger fragment: each entry's
rating-after equals the next entry's rating-before. -/
def Chained : List EloHistoryRow → Prop
  | [] => True
  | [_] => True
  | a :: b :: rest => a.elo_after = b.elo_before ∧ Chained (b :: rest)

/-- Chaining anchored at a starting rating r: the first entry's
rating-before is r, and each entry continues from the previous one. -/
def ChainedFrom : ℝ → List EloHistoryRow → Prop
  | _, [] => True
  | r, a :: rest => a.elo_before = r ∧ ChainedFrom a.elo_after rest

/-- The rating after the last entry of a fragment, r when it is empty. -/
def endElo : ℝ → List EloHistoryRow → ℝ
  | r, [] => r
  | _, a :: rest => endElo a.elo_after rest

/-- Structural description of a calculate_match_elo_changes output: the
participant ids are constant and the before-ratings chain from the given
starting pair, game by game. -/
def ChainP (p1 p2 : PlayerId) : ℝ → ℝ → List Elo.MatchEloChange → Prop
  | _, _, [] => True
  | e1, e2, c :: rest =>
      c.player1_id = p1 ∧ c.player2_id = p2 ∧
      c.player1_elo_before = e1 ∧ c.player2_elo_before = e2 ∧
      ChainP p1 p2 c.player1_elo_after c.player2_elo_after rest

/-- Player 1's rating after a change list, e when it is empty. -/
def finalP1 : ℝ → List Elo.MatchEloChange → ℝ
  | e, [] => e
  | _, c :: rest => finalP1 c.player1_elo_after rest

/-- Player 2's rating after a change list, e when it is empty. -/
def finalP2 : ℝ → List Elo.MatchEloChange → ℝ
  | e, [] => e
  | _, c :: rest => finalP2 c.player2_elo_after rest

/-- Invariant of the replay loop: for every season member the ledger rows
written so far for that player chain from some starting rating and end at
the player's current working rating; non-members have no rows. -/
def ReplayInv (hist : List EloHistoryRow) (st : PState) : Prop :=
  ∀ p, match st p with
    | some w => ∃ r, ChainedFrom r (hist.filter (fun e => e.player_id == p)) ∧
        endElo r (hist.filter (fun e => e.player_id == p)) = w.elo
    | none => hist.filter (fun e => e.player_id == p) = []

/-- A season used by the concrete witness databases. -/
def exSeason1 : Season :=
  { id := 1, name := ['S'], description := none, start_date := 10,
    starting_elo := 1000, k_factor := 32, base_k_factor := none,
    new_player_k_bonus := none, new_player_bonus_period := none,
    elo_version := none, is_active := true, created_at := 0 }

/-- A match owned by some season (submitted after exSeason1 starts). -/
def exMatchEligible : MatchRow :=
  { id := 1, player1_id := 1, player2_id := 2, submitted_at := 15, season_id := none }

/-- A match submitted before every season's start (an orphan). -/
def exMatchOrphan : MatchRow :=
  { id := 2, player1_id := 1, player2_id := 2, submitted_at := 5, season_id := none }

/-- A game of the orphaned match, itself without a season assignment. -/
def exGameOrphan : GameRow :=
  { id := 1, match_id := 2, player1_id := 1, player2_id := 2,
    played_at := 5, season_id := none }

/-- Witness database for the partition assigner: one season, one owned match. -/
def exDbAssign : Db :=
  { players := [], seasons := [exSeason1], player_seasons := [],
    match_rows := [exMatchEligible], games := [],
    elo_history := [], elo_configurations := [] }

/-- Counterexample database for reassignment idempotence: an orphaned match
whose game carries no season assignment. -/
def exDbOrphan : Db :=
  { players := [], seasons := [exSeason1], player_seasons := [],
    match_rows := [exMatchOrphan], games := [exGameOrphan],
    elo_history := [], elo_configurations := [] }

/-- A player whose stored global rating differs from the season outcome. -/
def exPlayer1 : PlayerRow := { id := 1, current_elo := 999, is_active := true }

/-- The second participant. -/
def exPlayer2 : PlayerRow := { id := 2, current_elo := 998, is_active := true }

/-- A stale participation row for player 1 in season 1. -/
def exPS1 : PlayerSeasonRow :=
  { player_id := 1, season_id := 1, current_elo := 900, games_played := 5,
    wins := 3, losses := 2, is_included := true }

/-- A stale participation row for player 2 in season 1. -/
def exPS2 : PlayerSeasonRow :=
  { player_id := 2, season_id := 1, current_elo := 910, games_played := 5,
    wins := 2, losses := 3, is_included := true }

/-- A match of season 1 that owns no games (it is skipped by the replay,
which still persists the reset working state). -/
def exMatchNoGames : MatchRow :=
  { id := 1, player1_id := 1, player2_id := 2, submitted_at := 15,
    season_id := some 1 }

/-- Database on which the replay engine runs a full (one-match) replay. -/
def exDbReplay : Db :=
  { players := [exPlayer1, exPlayer2], seasons := [exSeason1],
    player_seasons := [exPS1, exPS2], match_rows := [exMatchNoGames],
    games := [], elo_history := [], elo_configurations := [] }

/-- Player 1's participation row after the replay resets it. -/
def exPS1' : PlayerSeasonRow :=
  { player_id := 1, season_id := 1, current_elo := 1000, games_played := 0,
    wins := 0, losses := 0, is_included := true }

/-- Player 2's participation row after the replay resets it. -/
def exPS2' : PlayerSeasonRow :=
  { player_id := 2, season_id := 1, current_elo := 1000, games_played := 0,
    wins := 0, losses := 0, is_included := true }

/-- The state the replay leaves exDbReplay in. -/
def exDbReplay' : Db :=
  { players := [exPlayer1, exPlayer2], seasons := [exSeason1],
    player_seasons := [exPS1', exPS2'], match_rows := [exMatchNoGames],
    games := [], elo_history := [], elo_configurations := [] }

/-- A leftover ledger row of season 1. -/
def exHistStale : EloHistoryRow :=
  { player_id := 1, game_id := 99, elo_before := 5, elo_after := 6,
    elo_version := ['S'], season_id := some 1, created_at := 0 }

/-- Database whose season 1 owns zero events but still has ledger rows. -/
def exDbStale : Db :=
  { players := [], seasons := [exSeason1], player_seasons := [],
    match_rows := [], games := [], elo_history := [exHistStale],
    elo_configurations := [] }

/-- A second season starting after exSeason1, used for deletion. -/
def exSeason2 : Season :=
  { id := 2, name := ['T'], description := none, start_date := 20,
    starting_elo := 1000, k_factor := 32, base_k_factor := none,
    new_player_k_bonus := none, new_player_bonus_period := none,
    elo_version := none, is_active := true, created_at := 0 }

/-- Two empty seasons; deleting the later one must reassign to the earlier. -/
def exDbTwoSeasons : Db :=
  { players := [], seasons := [exSeason1, exSeason2], player_seasons := [],
    match_rows := [], games := [], elo_history := [], elo_configurations := [] }

/-- A season-creation request carrying a partial dynamic-K triple. -/
def exReqPartial : CreateSeasonRequest :=
  { name := ['A'], description := none, start_date := 0, starting_elo := 1000,
    k_factor := 32, base_k_factor := some 30, new_player_k_bonus := none,
    new_player_bonus_period := none, elo_version := none, player_ids := none }

/-- A season name of 49 ASCII bytes followed by a two-byte character, whose
byte 50 falls inside the final character. -/
def exBadName : List Char := List.replicate 49 'a' ++ ['é']

/-- A season whose name byte-truncation panics. -/
def exSeasonBadName : Season :=
  { id := 7, name := exBadName, description := none, start_date := 0,
    starting_elo := 1000, k_factor := 32, base_k_factor := none,
    new_player_k_bonus := none, new_player_bonus_period := none,
    elo_version := none, is_active := false, created_at := 0 }

/-- C5: the resolved K-factor is base_k + bonus * e^(-g / period) exactly when
all three dynamic components are present and the period is positive, and the
static K-factor in every other case; the elo.rs copy of the resolver agrees
with the seasons.rs copy on the corresponding configuration fields. -/
theorem dynamic_k_factor_resolution
    (k : ℝ) (base bonus : Option ℝ) (period : Option ℤ) (g : ℤ) :
    (∀ b bo p, base = some b → bonus = some bo → period = some p → 0 < p →
      Seasons.calculate_dynamic_k_factor k base bonus period g
        = b + bo * Real.exp (-(g : ℝ) / (p : ℝ))) ∧
    ((base = none ∨ bonus = none ∨ period = none ∨ ∃ p, period = some p ∧ p ≤ 0) →
      Seasons.calculate_dynamic_k_factor k base bonus period g = k) ∧
    (∀ cfg : Elo.EloConfig,
      Elo.calculate_dynamic_k_factor cfg g
        = Seasons.calculate_dynamic_k_factor cfg.k_factor cfg.base_k_factor
            cfg.new_player_k_bonus cfg.new_player_bonus_period g) := by
  refine ⟨?_, ?_, ?_⟩
  · intro b bo p hb hbo hp hpos
    subst hb; subst hbo; subst hp
    simp [Seasons.calculate_dynamic_k_factor, hpos]
  · intro h
    rcases h with h | h | h | ⟨p, hp, hple⟩
    · subst h; simp [Seasons.calculate_dynamic_k_factor]
    · subst h; cases base <;> simp [Seasons.calculate_dynamic_k_factor]
    · subst h; cases base <;> cases bonus <;> simp [Seasons.calculate_dynamic_k_factor]
    · subst hp
      cases base <;> cases bonus <;>
        simp [Seasons.calculate_dynamic_k_factor, not_lt.mpr hple]
  · intro cfg
    rfl

/-- Witness for C5 at a concrete configuration (both branches). -/
theorem dynamic_k_factor_resolution_witness :
    Seasons.calculate_dynamic_k_factor 32 (some 16) (some 16) (some 10) 0
      = 16 + 16 * Real.exp (-((0 : ℤ) : ℝ) / ((10 : ℤ) : ℝ))
    ∧ Seasons.calculate_dynamic_k_factor 32 none none none 5 = 32 :=
  ⟨(dynamic_k_factor_resolution 32 (some 16) (some 16) (some 10) 0).1 16 16 10
      rfl rfl rfl (by decide),
   (dynamic_k_factor_resolution 32 none none none 5).2.1 (Or.inl rfl)⟩

/-- C6: in the rating calculator, when both participants carry the same
K-factor, each game's rating deltas are exactly opposite (zero-sum). -/
theorem match_changes_zero_sum
    (p1 p2 : PlayerId) (e1 e2 : ℝ) (games : List (GameId × Elo.GameWinner))
    (k1 k2 : ℝ) (hk : k1 = k2) :
    ∀ c ∈ Elo.calculate_match_elo_changes p1 p2 e1 e2 games k1 k2,
      c.player1_elo_change = -c.player2_elo_change := by
  subst hk
  induction games generalizing e1 e2 with
  | nil =>
      intro c hc
      simp [Elo.calculate_match_elo_changes] at hc
  | cons gw rest ih =>
      intro c hc
      obtain ⟨gid, w⟩ := gw
      rw [Elo.calculate_match_elo_changes.eq_def] at hc
      simp only [List.mem_cons] at hc
      rcases hc with hc | hc
      · subst hc
        cases w <;> (dsimp only; ring)
      · exact ih _ _ _ hc

/-- Witness for C6 at one concrete game with equal K-factors. -/
theorem match_changes_zero_sum_witness :
    (32 : ℝ) = 32 ∧
    ∀ c ∈ Elo.calculate_match_elo_changes 1 2 1000 1000
        [(7, Elo.GameWinner.player1)] 32 32,
      c.player1_elo_change = -c.player2_elo_change :=
  ⟨rfl, match_changes_zero_sum 1 2 1000 1000 [(7, Elo.GameWinner.player1)] 32 32 rfl⟩

theorem latest_season_at_spec (seasons : List Season) (t : Timestamp) :
    (latest_season_at seasons t = none → ∀ s ∈ seasons, t < s.start_date) ∧
    (∀ b, latest_season_at seasons t = some b →
      b ∈ seasons ∧ b.start_date ≤ t ∧
      ∀ s ∈ seasons, s.start_date ≤ t → s.start_date ≤ b.start_date) := by
  induction seasons with
  | nil =>
      refine ⟨fun _ s hs => absurd hs (by simp), fun b hb => ?_⟩
      simp [latest_season_at] at hb
  | cons a rest ih =>
      cases hrec : latest_season_at rest t with
      | none =>
          refine ⟨fun h s hs => ?_, fun b hb => ?_⟩
          · simp only [latest_season_at, hrec] at h
            rcases List.mem_cons.mp hs with hs | hs
            · subst hs
              by_cases hat : s.start_date ≤ t
              · simp [hat] at h
              · exact lt_of_not_le hat
            · exact ih.1 hrec s hs
          · simp only [latest_season_at, hrec] at hb
            by_cases hat : a.start_date ≤ t
            · rw [if_pos hat] at hb
              obtain rfl : a = b := Option.some.inj hb
              refine ⟨List.mem_cons_self _ _, hat, fun s hs hst => ?_⟩
              rcases List.mem_cons.mp hs with hs | hs
              · subst hs; exact le_refl _
              · exact absurd hst (not_le.mpr (ih.1 hrec s hs))
            · simp [hat] at hb
      | some b0 =>
          have hb0 := ih.2 b0 hrec
          refine ⟨fun h => ?_, fun b hb => ?_⟩
          · simp only [latest_season_at, hrec] at h
            split at h <;> simp at h
          · simp only [latest_season_at, hrec] at hb
            by_cases hcond : a.start_date ≤ t ∧ b0.start_date < a.start_date
            · rw [if_pos hcond] at hb
              obtain rfl : a = b := Option.some.inj hb
              refine ⟨List.mem_cons_self _ _, hcond.1, fun s hs hst => ?_⟩
              rcases List.mem_cons.mp hs with hs | hs
              · subst hs; exact le_refl _
              · exact le_of_lt (lt_of_le_of_lt (hb0.2.2 s hs hst) hcond.2)
            · rw [if_neg hcond] at hb
              obtain rfl : b0 = b := Option.some.inj hb
              refine ⟨List.mem_cons_of_mem _ hb0.1, hb0.2.1, fun s hs hst => ?_⟩
              rcases List.mem_cons.mp hs with hs | hs
              · subst hs
                by_contra hlt
                exact hcond ⟨hst, lt_of_not_le hlt⟩
              · exact hb0.2.2 s hs hst

theorem latest_season_at_isSome_of_exists (seasons : List Season) (t : Timestamp)
    (h : ∃ s ∈ seasons, s.start_date ≤ t) :
    ∃ b, latest_season_at seasons t = some b := by
  cases hl : latest_season_at seasons t with
  | none =>
      obtain ⟨s, hs, hst⟩ := h
      exact absurd hst (not_le.mpr ((latest_season_at_spec seasons t).1 hl s hs))
  | some b => exact ⟨b, rfl⟩

/-- C4: the assigner maps every match to the season whose start timestamp is
maximal among those at or before the match's timestamp; a match earlier than
every season's start is left untouched (no season assignment is added), and
the reassignment operation applies exactly this per-row update to the whole
matches table (orphans are only logged, never an error). -/
theorem temporal_partition_assignment (db : Db) :
    ((reassign_games_to_seasons db).1.match_rows
        = db.match_rows.map (reassign_match_row db.seasons)) ∧
    (∀ m ∈ db.match_rows,
      ((∃ s ∈ db.seasons, s.start_date ≤ m.submitted_at) →
        ∃ s ∈ db.seasons,
          reassign_match_row db.seasons m = { m with season_id := some s.id } ∧
          s.start_date ≤ m.submitted_at ∧
          ∀ s' ∈ db.seasons, s'.start_date ≤ m.submitted_at →
            s'.start_date ≤ s.start_date) ∧
      ((∀ s ∈ db.seasons, m.submitted_at < s.start_date) →
        reassign_match_row db.seasons m = m)) := by
  refine ⟨rfl, fun m _ => ⟨fun hex => ?_, fun horph => ?_⟩⟩
  · obtain ⟨b, hb⟩ := latest_season_at_isSome_of_exists db.seasons m.submitted_at hex
    have hspec := (latest_season_at_spec db.seasons m.submitted_at).2 b hb
    refine ⟨b, hspec.1, ?_, hspec.2.1, hspec.2.2⟩
    rw [reassign_match_row]
    by_cases hw : match_needs_write db.seasons m = true
    · rw [if_pos hw, hb]
      rfl
    · rw [if_neg hw]
      rw [match_needs_write, hb] at hw
      simp only [Bool.or_eq_true, not_or] at hw
      have hmse : m.season_id = some b.id := by
        cases hms : m.season_id with
        | none => exact absurd (by simp [hms]) hw.1
        | some x =>
            have := hw.2
            rw [hms] at this
            have hx : x = b.id := by
              by_contra hne
              exact this (by simp [bne_iff_ne, hne])
            subst hx; rfl
      cases m
      simp only [MatchRow.mk.injEq] at hmse ⊢
      simp_all
  · have hnone : latest_season_at db.seasons m.submitted_at = none := by
      cases hl : latest_season_at db.seasons m.submitted_at with
      | none => rfl
      | some b =>
          have hspec := (latest_season_at_spec db.seasons m.submitted_at).2 b hl
          exact absurd hspec.2.1 (not_le.mpr (horph b hspec.1))
    rw [reassign_match_row, match_needs_write, hnone]
    simp

/-- Witness for C4: a concrete season set and an owned match. -/
theorem temporal_partition_assignment_witness :
    (exMatchEligible ∈ exDbAssign.match_rows ∧
      ∃ s ∈ exDbAssign.seasons, s.start_date ≤ exMatchEligible.submitted_at) ∧
    ∃ s ∈ exDbAssign.seasons,
      reassign_match_row exDbAssign.seasons exMatchEligible
          = { exMatchEligible with season_id := some s.id } ∧
      s.start_date ≤ exMatchEligible.submitted_at ∧
      ∀ s' ∈ exDbAssign.seasons, s'.start_date ≤ exMatchEligible.submitted_at →
        s'.start_date ≤ s.start_date :=
  ⟨⟨by simp [exDbAssign], ⟨exSeason1, by simp [exDbAssign], by decide⟩⟩,
    ((temporal_partition_assignment exDbAssign).2 exMatchEligible
        (by simp [exDbAssign])).1 ⟨exSeason1, by simp [exDbAssign], by decide⟩⟩

theorem match_needs_write_after (seasons : List Season) (m : MatchRow) :
    match_needs_write seasons (reassign_match_row seasons m) = false := by
  by_cases hw : match_needs_write seasons m = true
  · cases hl : latest_season_at seasons m.submitted_at with
    | none =>
        rw [match_needs_write, hl] at hw
        exact absurd hw (by simp)
    | some b =>
        rw [reassign_match_row, if_pos hw, match_needs_write]
        dsimp only
        rw [hl]
        simp
  · rw [reassign_match_row, if_neg hw]
    exact Bool.not_eq_true _ ▸ hw

theorem reassign_match_row_idem (seasons : List Season) (m : MatchRow) :
    reassign_match_row seasons (reassign_match_row seasons m)
      = reassign_match_row seasons m := by
  conv_lhs => rw [reassign_match_row]
  rw [match_needs_write_after]
  simp

theorem reassign_match_row_isSome (seasons : List Season) (m : MatchRow)
    (hex : ∃ s ∈ seasons, s.start_date ≤ m.submitted_at) :
    ((reassign_match_row seasons m).season_id).isSome = true := by
  obtain ⟨b, hb⟩ := latest_season_at_isSome_of_exists seasons m.submitted_at hex
  rw [reassign_match_row]
  by_cases hw : match_needs_write seasons m = true
  · rw [if_pos hw]
    dsimp only
    rw [hb]
    rfl
  · rw [if_neg hw]
    rw [match_needs_write, hb] at hw
    cases hms : m.season_id with
    | none => rw [hms] at hw; exact absurd (by simp) hw
    | some x => rfl

theorem game_needs_write_after (ms : List MatchRow) (g : GameRow)
    (hms : ∀ m ∈ ms, (m.season_id).isSome = true) :
    game_needs_write ms (reassign_game_row ms g) = false := by
  cases hf : ms.find? (fun m => m.id == g.match_id) with
  | none =>
      rw [reassign_game_row, hf, game_needs_write, hf]
  | some m =>
      have hmem : m ∈ ms := List.mem_of_find?_eq_some hf
      obtain ⟨c, hc⟩ := Option.isSome_iff_exists.mp (hms m hmem)
      by_cases hcond : (g.season_id.isNone || sql_neq g.season_id m.season_id) = true
      · rw [reassign_game_row, hf]
        dsimp only
        rw [if_pos hcond, game_needs_write]
        dsimp only
        rw [hf]
        dsimp only
        rw [hc]
        simp [sql_neq]
      · rw [reassign_game_row, hf]
        dsimp only
        rw [if_neg hcond, game_needs_write, hf]
        dsimp only
        cases hx : (g.season_id.isNone || sql_neq g.season_id m.season_id) with
        | false => rfl
        | true => exact absurd hx hcond

theorem reassign_game_row_of_not_needed (ms : List MatchRow) (g : GameRow)
    (h : game_needs_write ms g = false) :
    reassign_game_row ms g = g := by
  rw [game_needs_write] at h
  cases hf : ms.find? (fun m => m.id == g.match_id) with
  | none => rw [reassign_game_row, hf]
  | some m =>
      rw [hf] at h
      dsimp only at h
      rw [reassign_game_row, hf]
      dsimp only
      rw [if_neg (by simp [h])]

theorem reassign_game_row_idem (ms : List MatchRow) (g : GameRow) :
    reassign_game_row ms (reassign_game_row ms g) = reassign_game_row ms g := by
  cases hf : ms.find? (fun m => m.id == g.match_id) with
  | none =>
      have hi : reassign_game_row ms g = g := by rw [reassign_game_row, hf]
      rw [hi]
      exact hi
  | some m =>
      by_cases hcond : (g.season_id.isNone || sql_neq g.season_id m.season_id) = true
      · have hi : reassign_game_row ms g = { g with season_id := m.season_id } := by
          rw [reassign_game_row, hf]
          dsimp only
          rw [if_pos hcond]
        rw [hi, reassign_game_row]
        dsimp only
        rw [hf]
        dsimp only
        cases hms : m.season_id with
        | none => rw [if_pos (by simp [sql_neq])]
        | some c => rw [if_neg (by simp [sql_neq])]
      · have hi : reassign_game_row ms g = g := by
          rw [reassign_game_row, hf]
          dsimp only
          rw [if_neg hcond]
        rw [hi]
        exact hi

/-- C9 (amended): a second run of the assigner with unchanged season
boundaries never changes any stored value — the state after the first run is
a fixed point — and, when every match is owned by some season (no orphans),
it also writes zero rows. Without that proviso the zero-write part fails:
the games UPDATE re-counts a NULL-to-NULL write for games of an orphaned
match on every run, though the values stay unchanged (see the
counterexample). -/
theorem reassign_idempotent_amended (db : Db) :
    (reassign_games_to_seasons (reassign_games_to_seasons db).1).1
      = (reassign_games_to_seasons db).1 ∧
    ((∀ m ∈ db.match_rows, ∃ s ∈ db.seasons, s.start_date ≤ m.submitted_at) →
      reassign_games_to_seasons (reassign_games_to_seasons db).1
        = ((reassign_games_to_seasons db).1, 0)) := by
  have e1 : (reassign_games_to_seasons db).1.match_rows
      = db.match_rows.map (reassign_match_row db.seasons) := rfl
  have e2 : (reassign_games_to_seasons db).1.games
      = db.games.map (reassign_game_row
          (db.match_rows.map (reassign_match_row db.seasons))) := rfl
  have e3 : (reassign_games_to_seasons db).1.seasons = db.seasons := rfl
  have hm : (reassign_games_to_seasons db).1.match_rows.map
      (reassign_match_row db.seasons) = (reassign_games_to_seasons db).1.match_rows := by
    rw [e1, List.map_map]
    exact List.map_congr_left fun m _ => reassign_match_row_idem db.seasons m
  have hg : (reassign_games_to_seasons db).1.games.map
      (reassign_game_row (reassign_games_to_seasons db).1.match_rows)
        = (reassign_games_to_seasons db).1.games := by
    rw [e2, List.map_map]
    refine List.map_congr_left fun g _ => ?_
    simp only [Function.comp_apply]
    rw [← e1]
    exact reassign_game_row_idem _ _
  have h1 : (reassign_games_to_seasons (reassign_games_to_seasons db).1).1
      = (reassign_games_to_seasons db).1 := by
    show { (reassign_games_to_seasons db).1 with
        match_rows := (reassign_games_to_seasons db).1.match_rows.map
          (reassign_match_row (reassign_games_to_seasons db).1.seasons),
        games := (reassign_games_to_seasons db).1.games.map
          (reassign_game_row ((reassign_games_to_seasons db).1.match_rows.map
            (reassign_match_row (reassign_games_to_seasons db).1.seasons))) }
      = (reassign_games_to_seasons db).1
    rw [show (reassign_games_to_seasons db).1.seasons = db.seasons from rfl, hm, hg]
  refine ⟨h1, fun h => ?_⟩
  have hms1 : ∀ m ∈ (reassign_games_to_seasons db).1.match_rows,
      (m.season_id).isSome = true := by
    intro m1 hm1
    rw [e1] at hm1
    obtain ⟨m, hmem, rfl⟩ := List.mem_map.mp hm1
    exact reassign_match_row_isSome db.seasons m (h m hmem)
  have hmf : (reassign_games_to_seasons db).1.match_rows.filter
      (match_needs_write db.seasons) = [] := by
    rw [List.filter_eq_nil_iff]
    intro m1 hm1
    rw [e1] at hm1
    obtain ⟨m, hmem, rfl⟩ := List.mem_map.mp hm1
    simp [match_needs_write_after]
  have hgf : (reassign_games_to_seasons db).1.games.filter
      (game_needs_write ((reassign_games_to_seasons db).1.match_rows.map
        (reassign_match_row db.seasons))) = [] := by
    rw [hm, List.filter_eq_nil_iff]
    intro g1 hg1
    rw [e2] at hg1
    obtain ⟨g, hmem, rfl⟩ := List.mem_map.mp hg1
    rw [← e1]
    simp [game_needs_write_after _ g hms1]
  have h2 : (reassign_games_to_seasons (reassign_games_to_seasons db).1).2 = 0 := by
    show (((reassign_games_to_seasons db).1.match_rows.filter
        (match_needs_write (reassign_games_to_seasons db).1.seasons)).length : ℤ)
      + (((reassign_games_to_seasons db).1.games.filter
        (game_needs_write ((reassign_games_to_seasons db).1.match_rows.map
          (reassign_match_row (reassign_games_to_seasons db).1.seasons)))).length : ℤ)
      = 0
    rw [show (reassign_games_to_seasons db).1.seasons = db.seasons from rfl, hmf, hgf]
    rfl
  calc reassign_games_to_seasons (reassign_games_to_seasons db).1
      = ((reassign_games_to_seasons (reassign_games_to_seasons db).1).1,
         (reassign_games_to_seasons (reassign_games_to_seasons db).1).2) := rfl
    _ = ((reassign_games_to_seasons db).1, 0) := by rw [h1, h2]

/-- Witness for C9 (amended) at a concrete orphan-free database: the state
is a fixed point and, all matches being owned, the second run writes zero
rows. -/
theorem reassign_idempotent_amended_witness :
    ((∀ m ∈ exDbAssign.match_rows, ∃ s ∈ exDbAssign.seasons,
        s.start_date ≤ m.submitted_at) ∧
      (reassign_games_to_seasons (reassign_games_to_seasons exDbAssign).1).1
        = (reassign_games_to_seasons exDbAssign).1) ∧
    reassign_games_to_seasons (reassign_games_to_seasons exDbAssign).1
      = ((reassign_games_to_seasons exDbAssign).1, 0) := by
  have hh : ∀ m ∈ exDbAssign.match_rows, ∃ s ∈ exDbAssign.seasons,
      s.start_date ≤ m.submitted_at := by
    intro m hm
    simp only [exDbAssign, List.mem_singleton] at hm
    subst hm
    exact ⟨exSeason1, by simp [exDbAssign], by decide⟩
  exact ⟨⟨hh, (reassign_idempotent_amended exDbAssign).1⟩,
    (reassign_idempotent_amended exDbAssign).2 hh⟩

/-- C9 counterexample: starting from a database holding one orphaned match
with one unassigned game, the second run of the assigner reports one written
row, not zero — the games UPDATE keeps matching the NULL-assigned game —
even though it changes no stored value (the state is already a fixed point
of the first run). -/
theorem reassign_idempotent_counterexample :
    (reassign_games_to_seasons (reassign_games_to_seasons exDbOrphan).1).2 = 1 ∧
    ¬ (reassign_games_to_seasons (reassign_games_to_seasons exDbOrphan).1).2 = 0 ∧
    (reassign_games_to_seasons (reassign_games_to_seasons exDbOrphan).1).1
      = (reassign_games_to_seasons exDbOrphan).1 := by
  have h : (reassign_games_to_seasons (reassign_games_to_seasons exDbOrphan).1).2 = 1 := by
    rfl
  exact ⟨h, by rw [h]; decide, by rfl⟩

theorem utf8Len_cons (c : Char) (l : List Char) :
    utf8Len (c :: l) = c.utf8Size + utf8Len l := by
  simp [utf8Len]

theorem slice_to_byte_len (s : List Char) (n : Nat) (l : List Char)
    (h : slice_to_byte s n = some l) : utf8Len l = n := by
  induction s generalizing n l with
  | nil =>
      cases n with
      | zero =>
          simp only [slice_to_byte, Option.some.injEq] at h
          subst h; rfl
      | succ k => simp [slice_to_byte] at h
  | cons c rest ih =>
      cases n with
      | zero =>
          simp only [slice_to_byte, Option.some.injEq] at h
          subst h; rfl
      | succ k =>
          rw [slice_to_byte] at h
          split at h
          · rename_i hsize
            cases hrec : slice_to_byte rest (k + 1 - c.utf8Size) with
            | none => rw [hrec] at h; simp at h
            | some l' =>
                rw [hrec] at h
                simp only [Option.map_some', Option.some.injEq] at h
                subst h
                have hlen := ih _ _ hrec
                rw [utf8Len_cons, hlen]
                omega
          · exact absurd h (by simp)

/-- C10 (amended): deriving the version tag succeeds, with a tag of at most
50 bytes, provided the stored configuration reference (a VARCHAR(50) column)
is at most 50 bytes and, when the season name is used instead, byte offset
50 of the name falls on a character boundary. Without the boundary proviso
the byte slice panics (see the counterexample). -/
theorem version_tag_amended (season : Season)
    (hv : ∀ v, season.elo_version = some v → utf8Len v ≤ 50)
    (hb : season.elo_version = none → 50 < utf8Len season.name →
          (slice_to_byte season.name 50).isSome = true) :
    ∃ tag, derive_elo_version_string season = some tag ∧ utf8Len tag ≤ 50 := by
  cases hev : season.elo_version with
  | some v =>
      exact ⟨v, by simp only [derive_elo_version_string, hev], hv v hev⟩
  | none =>
      by_cases hlen : utf8Len season.name ≤ 50
      · refine ⟨season.name, ?_, hlen⟩
        simp only [derive_elo_version_string, hev, if_pos hlen]
      · obtain ⟨l, hl⟩ := Option.isSome_iff_exists.mp (hb hev (lt_of_not_le hlen))
        refine ⟨l, ?_, le_of_eq (slice_to_byte_len _ _ _ hl)⟩
        simp only [derive_elo_version_string, hev, if_neg hlen, hl]

/-- Witness for C10 (amended) at a concrete short-named season. -/
theorem version_tag_amended_witness :
    (∀ v, exSeason1.elo_version = some v → utf8Len v ≤ 50) ∧
    ∃ tag, derive_elo_version_string exSeason1 = some tag ∧ utf8Len tag ≤ 50 :=
  ⟨fun v h => by simp [exSeason1] at h,
   version_tag_amended exSeason1 (fun v h => by simp [exSeason1] at h)
     (fun _ h => absurd h (by decide))⟩

/-- C10 counterexample: a 51-byte season name whose byte 50 splits a
two-byte character makes the tag derivation panic instead of succeeding. -/
theorem version_tag_counterexample :
    utf8Len exBadName = 51 ∧
    derive_elo_version_string exSeasonBadName = none := by
  constructor
  · decide
  · decide

theorem filter_self_idem {α : Type} (p : α → Bool) (l : List α) :
    (l.filter p).filter p = l.filter p := by
  induction l with
  | nil => rfl
  | cons a rest ih =>
      by_cases h : p a = true
      · rw [List.filter_cons_of_pos h, List.filter_cons_of_pos h, ih]
      · rw [List.filter_cons_of_neg h, ih]

theorem process_match_games_only (db1 db2 : Db) (h : db1.games = db2.games)
    (ctx : ReplayCtx) (st : PState) (hist : List EloHistoryRow) (m : MatchRow) :
    process_match db1 ctx st hist m = process_match db2 ctx st hist m := by
  have hg : match_games db1 m.id = match_games db2 m.id := by
    rw [match_games, match_games, h]
  rw [process_match, process_match, hg]

theorem replay_matches_games_only (db1 db2 : Db) (h : db1.games = db2.games)
    (ctx : ReplayCtx) (ms : List MatchRow) :
    ∀ st hist, replay_season_matches db1 ctx st hist ms
      = replay_season_matches db2 ctx st hist ms := by
  induction ms with
  | nil => intro st hist; rfl
  | cons m rest ih =>
      intro st hist
      simp only [replay_season_matches]
      rw [process_match_games_only db1 db2 h, ih]

theorem replay_result_congr (db1 db2 : Db) (sid : SeasonId) (season : Season)
    (tag : List Char)
    (hg : db1.games = db2.games) (hps : db1.player_seasons = db2.player_seasons)
    (hm : db1.match_rows = db2.match_rows)
    (hc : db1.elo_configurations = db2.elo_configurations) :
    replay_result db1 sid season tag = replay_result db2 sid season tag := by
  have hre : resolve_elo_config db1 season = resolve_elo_config db2 season := by
    rw [resolve_elo_config, resolve_elo_config, hc]
  have hsm : season_match_rows db1 sid = season_match_rows db2 sid := by
    rw [season_match_rows, season_match_rows, hm]
  have hin : ∀ se, init_state db1 sid se = init_state db2 sid se := by
    intro se
    funext p
    rw [init_state, init_state, hps]
  rw [replay_result, replay_result, hre]
  rcases resolve_elo_config db2 season with ⟨k, base, bonus, period, se⟩
  dsimp only
  rw [hsm, hin se, replay_matches_games_only db1 db2 hg]

/-- C2 (amended): when the target season owns at least one event, one
invocation of the replay engine deletes all of that season's prior ledger
rows and rebuilds from the starting rating — its entire outcome is the same
as if the prior season ledger rows had never existed. When the season owns
zero events, however, the engine returns success immediately and the prior
ledger rows are left in place, not removed. -/
theorem ledger_wholesale_rebuild_amended (db : Db) (sid : SeasonId)
    (season : Season) (tag : List Char)
    (hs : get_season_by_id db sid = some season)
    (htag : derive_elo_version_string season = some tag) :
    ((season_match_rows db sid).isEmpty = false →
      recalculate_season_elo db sid
        = recalculate_season_elo
            { db with elo_history :=
                db.elo_history.filter (fun e => e.season_id != some sid) } sid) ∧
    ((season_match_rows db sid).isEmpty = true →
      recalculate_season_elo db sid = .ok db) := by
  constructor
  · intro hne
    have hget : get_season_by_id
        { db with elo_history :=
            db.elo_history.filter (fun e => e.season_id != some sid) } sid
          = get_season_by_id db sid := rfl
    have hsm : season_match_rows
        { db with elo_history :=
            db.elo_history.filter (fun e => e.season_id != some sid) } sid
          = season_match_rows db sid := rfl
    have hrr : replay_result
        { db with elo_history :=
            db.elo_history.filter (fun e => e.season_id != some sid) } sid season tag
          = replay_result db sid season tag :=
      replay_result_congr _ _ sid season tag rfl rfl rfl rfl
    simp only [recalculate_season_elo, hget, hs, htag, hsm, hne, hrr,
      Bool.false_eq_true, if_false]
    have hkept : ({ db with elo_history :=
        db.elo_history.filter (fun e => e.season_id != some sid) } : Db).elo_history.filter
          (fun e => e.season_id != some sid)
        = db.elo_history.filter (fun e => e.season_id != some sid) :=
      filter_self_idem _ _
    rw [hkept]
  · intro hempty
    simp only [recalculate_season_elo, hs, htag, hempty, if_true]

/-- Witness for C2 (amended), both branches, at concrete databases. -/
theorem ledger_wholesale_rebuild_amended_witness :
    (get_season_by_id exDbReplay 1 = some exSeason1 ∧
      derive_elo_version_string exSeason1 = some ['S'] ∧
      (season_match_rows exDbReplay 1).isEmpty = false ∧
      recalculate_season_elo exDbReplay 1
        = recalculate_season_elo
            { exDbReplay with elo_history :=
                exDbReplay.elo_history.filter (fun e => e.season_id != some 1) } 1) ∧
    ((season_match_rows exDbStale 1).isEmpty = true ∧
      recalculate_season_elo exDbStale 1 = .ok exDbStale) := by
  refine ⟨⟨rfl, rfl, rfl, ?_⟩, rfl, ?_⟩
  · exact (ledger_wholesale_rebuild_amended exDbReplay 1 exSeason1 ['S'] rfl rfl).1 rfl
  · exact (ledger_wholesale_rebuild_amended exDbStale 1 exSeason1 ['S'] rfl rfl).2 rfl

/-- C2 counterexample: a season that currently owns zero events keeps its
prior ledger rows — the engine returns success without deleting them. -/
theorem ledger_wholesale_rebuild_counterexample :
    recalculate_season_elo exDbStale 1 = .ok exDbStale ∧
    exHistStale ∈ exDbStale.elo_history ∧
    exHistStale.season_id = some 1 := by
  refine ⟨rfl, ?_, rfl⟩
  simp [exDbStale]

/-- C1 (amended): after a replay with at least one owned event succeeds, the
engine has persisted each season member's final Participation row (rating,
games played, wins, losses) from its working state — but it has NOT
persisted any player's global current-rating field: the players table is
returned unchanged. Only the legacy global recalculation (recalculate_all_elo
in elo.rs) writes Player.current_elo. -/
theorem replay_persistence_amended (db : Db) (sid : SeasonId) (season : Season)
    (tag : List Char) (db' : Db)
    (hs : get_season_by_id db sid = some season)
    (htag : derive_elo_version_string season = some tag)
    (hne : (season_match_rows db sid).isEmpty = false)
    (hok : recalculate_season_elo db sid = .ok db') :
    db'.players = db.players ∧
    ∀ r ∈ db.player_seasons, r.season_id = sid →
      ∀ w, (replay_result db sid season tag).1 r.player_id = some w →
        { r with
          current_elo := w.elo
          games_played := w.games_played
          wins := w.wins
          losses := w.losses } ∈ db'.player_seasons := by
  simp only [recalculate_season_elo, hs, htag, hne, Bool.false_eq_true,
    if_false, Except.ok.injEq] at hok
  subst hok
  refine ⟨rfl, fun r hr hrs w hw => ?_⟩
  dsimp only
  refine List.mem_map.mpr ⟨r, hr, ?_⟩
  have hbeq : (r.season_id == sid) = true := beq_iff_eq.mpr hrs
  rw [if_pos hbeq, hw]

/-- Witness for C1 (amended) at the concrete one-match database. -/
theorem replay_persistence_amended_witness :
    recalculate_season_elo exDbReplay 1 = .ok exDbReplay' ∧
    exDbReplay'.players = exDbReplay.players := by
  have h : recalculate_season_elo exDbReplay 1 = .ok exDbReplay' := by rfl
  exact ⟨h, (replay_persistence_amended exDbReplay 1 exSeason1 ['S'] exDbReplay'
    rfl rfl rfl h).1⟩

/-- C1 counterexample: after the replay of season 1 finishes, player 1's
final Participation row carries rating 1000, while the Player record's
global current-rating field still carries its stale value 999 — the engine
does not persist the global current-rating field. -/
theorem replay_persistence_counterexample :
    recalculate_season_elo exDbReplay 1 = .ok exDbReplay' ∧
    exPS1' ∈ exDbReplay'.player_seasons ∧
    exPlayer1 ∈ exDbReplay'.players ∧
    exPS1'.player_id = exPlayer1.id ∧
    exPS1'.current_elo ≠ exPlayer1.current_elo ∧
    exDbReplay'.players = exDbReplay.players := by
  refine ⟨by rfl, by simp [exDbReplay'], by simp [exDbReplay'], rfl, ?_, rfl⟩
  show (1000 : ℝ) ≠ 999
  norm_num

theorem cmec_length (p1 p2 : PlayerId) (e1 e2 : ℝ)
    (games : List (GameId × Elo.GameWinner)) (k1 k2 : ℝ) :
    (Elo.calculate_match_elo_changes p1 p2 e1 e2 games k1 k2).length
      = games.length := by
  induction games generalizing e1 e2 with
  | nil => rfl
  | cons gw rest ih =>
      obtain ⟨gid, w⟩ := gw
      rw [Elo.calculate_match_elo_changes.eq_def]
      dsimp only
      rw [List.length_cons, List.length_cons, ih]

theorem cmec_chainP (p1 p2 : PlayerId) (e1 e2 : ℝ)
    (games : List (GameId × Elo.GameWinner)) (k1 k2 : ℝ) :
    ChainP p1 p2 e1 e2
      (Elo.calculate_match_elo_changes p1 p2 e1 e2 games k1 k2) := by
  induction games generalizing e1 e2 with
  | nil => trivial
  | cons gw rest ih =>
      obtain ⟨gid, w⟩ := gw
      rw [Elo.calculate_match_elo_changes.eq_def]
      dsimp only
      exact ⟨rfl, rfl, rfl, rfl, ih _ _⟩

theorem chainP_getLast (p1 p2 : PlayerId) (cs : List Elo.MatchEloChange) :
    ∀ (e1 e2 : ℝ), ChainP p1 p2 e1 e2 cs →
      ∀ lc, cs.getLast? = some lc →
        lc.player1_elo_after = finalP1 e1 cs ∧
        lc.player2_elo_after = finalP2 e2 cs := by
  induction cs with
  | nil => intro e1 e2 _ lc h; simp at h
  | cons c rest ih =>
      intro e1 e2 hch lc h
      cases rest with
      | nil =>
          rw [List.getLast?_singleton] at h
          obtain rfl : c = lc := Option.some.inj h
          exact ⟨rfl, rfl⟩
      | cons c' rest' =>
          rw [List.getLast?_cons_cons] at h
          exact ih _ _ hch.2.2.2.2 lc h

theorem chainedFrom_chained (l : List EloHistoryRow) :
    ∀ r, ChainedFrom r l → Chained l := by
  induction l with
  | nil => intro r _; trivial
  | cons a rest ih =>
      intro r h
      cases rest with
      | nil => trivial
      | cons b rest' =>
          obtain ⟨_, hrest⟩ := h
          exact ⟨hrest.1.symm, ih a.elo_after hrest⟩

theorem endElo_append (A : List EloHistoryRow) :
    ∀ (r : ℝ) (B : List EloHistoryRow),
      endElo r (A ++ B) = endElo (endElo r A) B := by
  induction A with
  | nil => intro r B; rfl
  | cons a A' ih =>
      intro r B
      rw [List.cons_append]
      show endElo a.elo_after (A' ++ B) = _
      rw [ih]
      rfl

theorem chainedFrom_append (A : List EloHistoryRow) :
    ∀ (r : ℝ) (B : List EloHistoryRow),
      ChainedFrom r A → ChainedFrom (endElo r A) B → ChainedFrom r (A ++ B) := by
  induction A with
  | nil => intro r B _ hB; exact hB
  | cons a A' ih =>
      intro r B hA hB
      obtain ⟨ha, hA'⟩ := hA
      exact ⟨ha, ih _ _ hA' hB⟩

theorem emit_rows_season (ctx : ReplayCtx) (pairs : List (Elo.MatchEloChange × GameRow)) :
    ∀ e ∈ emit_rows ctx pairs, e.season_id = some ctx.season_id := by
  induction pairs with
  | nil => intro e he; simp [emit_rows] at he
  | cons pr rest ih =>
      obtain ⟨c, g⟩ := pr
      intro e he
      simp only [emit_rows, List.mem_cons] at he
      rcases he with rfl | rfl | he
      · rfl
      · rfl
      · exact ih e he

theorem emit_filter_p1 (ctx : ReplayCtx) (p1 p2 : PlayerId) (hne : p1 ≠ p2)
    (cs : List Elo.MatchEloChange) :
    ∀ (games : List GameRow) (e1 e2 : ℝ),
      ChainP p1 p2 e1 e2 cs → cs.length = games.length →
      ChainedFrom e1 ((emit_rows ctx (cs.zip games)).filter
        (fun e => e.player_id == p1)) ∧
      endElo e1 ((emit_rows ctx (cs.zip games)).filter
        (fun e => e.player_id == p1)) = finalP1 e1 cs := by
  induction cs with
  | nil => intro games e1 e2 _ _; exact ⟨trivial, rfl⟩
  | cons c cs' ih =>
      intro games e1 e2 hch hlen
      cases games with
      | nil => simp at hlen
      | cons g gs =>
          obtain ⟨h1, h2, h3, h4, h5⟩ := hch
          rw [List.zip_cons_cons, emit_rows]
          rw [List.filter_cons_of_pos (by dsimp only; rw [h1]; simp)]
          rw [List.filter_cons_of_neg
            (by dsimp only; rw [h2]; simp [beq_eq_false_iff_ne];
                exact Ne.symm hne)]
          have hih := ih gs c.player1_elo_after c.player2_elo_after h5
            (by simpa using hlen)
          refine ⟨⟨h3, ?_⟩, ?_⟩
          · exact hih.1
          · show endElo c.player1_elo_after _ = _
            exact hih.2

theorem emit_filter_p2 (ctx : ReplayCtx) (p1 p2 : PlayerId) (hne : p1 ≠ p2)
    (cs : List Elo.MatchEloChange) :
    ∀ (games : List GameRow) (e1 e2 : ℝ),
      ChainP p1 p2 e1 e2 cs → cs.length = games.length →
      ChainedFrom e2 ((emit_rows ctx (cs.zip games)).filter
        (fun e => e.player_id == p2)) ∧
      endElo e2 ((emit_rows ctx (cs.zip games)).filter
        (fun e => e.player_id == p2)) = finalP2 e2 cs := by
  induction cs with
  | nil => intro games e1 e2 _ _; exact ⟨trivial, rfl⟩
  | cons c cs' ih =>
      intro games e1 e2 hch hlen
      cases games with
      | nil => simp at hlen
      | cons g gs =>
          obtain ⟨h1, h2, h3, h4, h5⟩ := hch
          rw [List.zip_cons_cons, emit_rows]
          rw [List.filter_cons_of_neg
            (by dsimp only; rw [h1]; simp [beq_eq_false_iff_ne]; exact hne)]
          rw [List.filter_cons_of_pos (by dsimp only; rw [h2]; simp)]
          have hih := ih gs c.player1_elo_after c.player2_elo_after h5
            (by simpa using hlen)
          refine ⟨⟨h4, ?_⟩, ?_⟩
          · exact hih.1
          · show endElo c.player2_elo_after _ = _
            exact hih.2

theorem emit_filter_other (ctx : ReplayCtx) (p1 p2 q : PlayerId)
    (hq1 : q ≠ p1) (hq2 : q ≠ p2) (cs : List Elo.MatchEloChange) :
    ∀ (games : List GameRow) (e1 e2 : ℝ),
      ChainP p1 p2 e1 e2 cs →
      (emit_rows ctx (cs.zip games)).filter (fun e => e.player_id == q) = [] := by
  induction cs with
  | nil => intro games e1 e2 _; rfl
  | cons c cs' ih =>
      intro games e1 e2 hch
      cases games with
      | nil => rfl
      | cons g gs =>
          obtain ⟨h1, h2, _, _, h5⟩ := hch
          rw [List.zip_cons_cons, emit_rows]
          rw [List.filter_cons_of_neg
            (by dsimp only; rw [h1]; simp [beq_eq_false_iff_ne];
                exact Ne.symm hq1)]
          rw [List.filter_cons_of_neg
            (by dsimp only; rw [h2]; simp [beq_eq_false_iff_ne];
                exact Ne.symm hq2)]
          exact ih gs _ _ h5

theorem bump_winner_elo (st : PState) (p q : PlayerId) :
    ((bump_winner st p) q).map WorkingStats.elo = (st q).map WorkingStats.elo := by
  simp only [bump_winner]
  by_cases h : q = p
  · rw [if_pos h]; cases st q <;> rfl
  · rw [if_neg h]

theorem bump_loser_elo (st : PState) (p q : PlayerId) :
    ((bump_loser st p) q).map WorkingStats.elo = (st q).map WorkingStats.elo := by
  simp only [bump_loser]
  by_cases h : q = p
  · rw [if_pos h]; cases st q <;> rfl
  · rw [if_neg h]

theorem bump_game_stats_elo (m : MatchRow) (st : PState) (g : GameRow) (q : PlayerId) :
    ((bump_game_stats m st g) q).map WorkingStats.elo
      = (st q).map WorkingStats.elo := by
  rw [bump_game_stats]
  split <;> rw [bump_loser_elo, bump_winner_elo]

theorem foldl_bump_elo (m : MatchRow) (games : List GameRow) :
    ∀ (st : PState) (q : PlayerId),
      ((games.foldl (bump_game_stats m) st) q).map WorkingStats.elo
        = (st q).map WorkingStats.elo := by
  induction games with
  | nil => intro st q; rfl
  | cons g gs ih =>
      intro st q
      rw [List.foldl_cons, ih, bump_game_stats_elo]

theorem bump_game_stats_other (m : MatchRow) (st : PState) (g : GameRow)
    (q : PlayerId) (h1 : q ≠ m.player1_id) (h2 : q ≠ m.player2_id) :
    (bump_game_stats m st g) q = st q := by
  rw [bump_game_stats]
  split <;> simp [bump_winner, bump_loser, h1, h2]

theorem foldl_bump_other (m : MatchRow) (games : List GameRow) :
    ∀ (st : PState) (q : PlayerId), q ≠ m.player1_id → q ≠ m.player2_id →
      (games.foldl (bump_game_stats m) st) q = st q := by
  induction games with
  | nil => intro st q _ _; rfl
  | cons g gs ih =>
      intro st q h1 h2
      rw [List.foldl_cons, ih _ _ h1 h2, bump_game_stats_other m st g q h1 h2]

theorem set_elo_same (st : PState) (p : PlayerId) (x : ℝ) :
    (set_elo st p x) p = (st p).map (fun w => { w with elo := x }) := by
  simp [set_elo]

theorem set_elo_other (st : PState) (p : PlayerId) (x : ℝ) (q : PlayerId)
    (h : q ≠ p) : (set_elo st p x) q = st q := by
  simp [set_elo, h]

theorem replay_step_inv (ctx : ReplayCtx) (st : PState)
    (hist : List EloHistoryRow) (m : MatchRow) (games : List GameRow)
    (k1 k2 : ℝ) (w1 w2 : WorkingStats)
    (hdist : m.player1_id ≠ m.player2_id)
    (hw1 : st m.player1_id = some w1) (hw2 : st m.player2_id = some w2)
    (hinv : ReplayInv hist st) (hgne : games.isEmpty = false) :
    ReplayInv
      (hist ++ emit_rows ctx
        ((Elo.calculate_match_elo_changes m.player1_id m.player2_id w1.elo w2.elo
          (games.map (fun g => (g.id,
            if g.player1_id = m.player1_id then Elo.GameWinner.player1
            else Elo.GameWinner.player2))) k1 k2).zip games))
      (match (Elo.calculate_match_elo_changes m.player1_id m.player2_id w1.elo w2.elo
          (games.map (fun g => (g.id,
            if g.player1_id = m.player1_id then Elo.GameWinner.player1
            else Elo.GameWinner.player2))) k1 k2).getLast? with
        | some lc =>
            set_elo (set_elo (games.foldl (bump_game_stats m) st) m.player1_id
              lc.player1_elo_after) m.player2_id lc.player2_elo_after
        | none => games.foldl (bump_game_stats m) st) := by
  set cs := Elo.calculate_match_elo_changes m.player1_id m.player2_id w1.elo w2.elo
      (games.map (fun g => (g.id,
        if g.player1_id = m.player1_id then Elo.GameWinner.player1
        else Elo.GameWinner.player2))) k1 k2 with hcs
  have hch : ChainP m.player1_id m.player2_id w1.elo w2.elo cs := by
    rw [hcs]; exact cmec_chainP _ _ _ _ _ _ _
  have hlen : cs.length = games.length := by
    rw [hcs, cmec_length, List.length_map]
  have hcsne : cs ≠ [] := by
    intro h
    cases games with
    | nil => simp at hgne
    | cons g gs => rw [h] at hlen; simp at hlen
  obtain ⟨lc, hlast⟩ : ∃ lc, cs.getLast? = some lc := by
    cases hx : cs.getLast? with
    | none => exact absurd (List.getLast?_eq_none_iff.mp hx) hcsne
    | some lc => exact ⟨lc, rfl⟩
  rw [hlast]
  dsimp only
  have hfin := chainP_getLast m.player1_id m.player2_id cs w1.elo w2.elo hch lc hlast
  intro p
  by_cases hp1 : p = m.player1_id
  · subst hp1
    rw [set_elo_other _ _ _ _ hdist, set_elo_same]
    have hmap := foldl_bump_elo m games st m.player1_id
    rw [hw1] at hmap
    cases hx : (games.foldl (bump_game_stats m) st) m.player1_id with
    | none => rw [hx] at hmap; simp at hmap
    | some w1' =>
        dsimp only [Option.map]
        have hi := hinv m.player1_id
        rw [hw1] at hi
        obtain ⟨r, hcf, hend⟩ := hi
        have hemit := emit_filter_p1 ctx m.player1_id m.player2_id hdist cs
          games w1.elo w2.elo hch hlen
        refine ⟨r, ?_, ?_⟩
        · rw [List.filter_append]
          exact chainedFrom_append _ r _ hcf (by rw [hend]; exact hemit.1)
        · rw [List.filter_append, endElo_append, hend, hemit.2]
          exact hfin.1.symm
  · by_cases hp2 : p = m.player2_id
    · subst hp2
      rw [set_elo_same, set_elo_other _ _ _ _ (Ne.symm hdist)]
      have hmap := foldl_bump_elo m games st m.player2_id
      rw [hw2] at hmap
      cases hx : (games.foldl (bump_game_stats m) st) m.player2_id with
      | none => rw [hx] at hmap; simp at hmap
      | some w2' =>
          dsimp only [Option.map]
          have hi := hinv m.player2_id
          rw [hw2] at hi
          obtain ⟨r, hcf, hend⟩ := hi
          have hemit := emit_filter_p2 ctx m.player1_id m.player2_id hdist cs
            games w1.elo w2.elo hch hlen
          refine ⟨r, ?_, ?_⟩
          · rw [List.filter_append]
            exact chainedFrom_append _ r _ hcf (by rw [hend]; exact hemit.1)
          · rw [List.filter_append, endElo_append, hend, hemit.2]
            exact hfin.2.symm
    · rw [set_elo_other _ _ _ _ hp2, set_elo_other _ _ _ _ hp1,
        foldl_bump_other m games st p hp1 hp2]
      rw [List.filter_append,
        emit_filter_other ctx m.player1_id m.player2_id p hp1 hp2 cs games
          w1.elo w2.elo hch,
        List.append_nil]
      exact hinv p

theorem process_match_inv (db : Db) (ctx : ReplayCtx) (st : PState)
    (hist : List EloHistoryRow) (m : MatchRow)
    (hdist : m.player1_id ≠ m.player2_id) (hinv : ReplayInv hist st) :
    ReplayInv (process_match db ctx st hist m).2
      (process_match db ctx st hist m).1 := by
  simp only [process_match]
  by_cases hge : (match_games db m.id).isEmpty = true
  · rw [if_pos hge]; exact hinv
  · rw [if_neg hge]
    cases hw1 : st m.player1_id with
    | none => dsimp only; exact hinv
    | some w1 =>
        cases hw2 : st m.player2_id with
        | none => dsimp only; exact hinv
        | some w2 =>
            dsimp only
            exact replay_step_inv ctx st hist m (match_games db m.id) _ _ w1 w2
              hdist hw1 hw2 hinv
              (by revert hge; cases (match_games db m.id).isEmpty <;> simp)

theorem replay_loop_inv (db : Db) (ctx : ReplayCtx) (ms : List MatchRow) :
    ∀ (st : PState) (hist : List EloHistoryRow),
      (∀ m ∈ ms, m.player1_id ≠ m.player2_id) → ReplayInv hist st →
      ReplayInv (replay_season_matches db ctx st hist ms).2
        (replay_season_matches db ctx st hist ms).1 := by
  induction ms with
  | nil => intro st hist _ hinv; exact hinv
  | cons m rest ih =>
      intro st hist hd hinv
      simp only [replay_season_matches]
      exact ih _ _ (fun m' hm' => hd m' (List.mem_cons_of_mem _ hm'))
        (process_match_inv db ctx st hist m (hd m (List.mem_cons_self _ _)) hinv)

theorem init_state_inv (db : Db) (sid : SeasonId) (se : ℝ) :
    ReplayInv [] (init_state db sid se) := by
  intro p
  cases h : init_state db sid se p with
  | none => rfl
  | some w => exact ⟨w.elo, trivial, rfl⟩

theorem process_match_rows_sid (db : Db) (ctx : ReplayCtx) (st : PState)
    (hist : List EloHistoryRow) (m : MatchRow)
    (h : ∀ e ∈ hist, e.season_id = some ctx.season_id) :
    ∀ e ∈ (process_match db ctx st hist m).2, e.season_id = some ctx.season_id := by
  simp only [process_match]
  by_cases hge : (match_games db m.id).isEmpty = true
  · rw [if_pos hge]; exact h
  · rw [if_neg hge]
    cases hw1 : st m.player1_id with
    | none => dsimp only; exact h
    | some w1 =>
        cases hw2 : st m.player2_id with
        | none => dsimp only; exact h
        | some w2 =>
            dsimp only
            intro e he
            rcases List.mem_append.mp he with he | he
            · exact h e he
            · exact emit_rows_season ctx _ e he

theorem replay_loop_rows_sid (db : Db) (ctx : ReplayCtx) (ms : List MatchRow) :
    ∀ st hist, (∀ e ∈ hist, e.season_id = some ctx.season_id) →
      ∀ e ∈ (replay_season_matches db ctx st hist ms).2,
        e.season_id = some ctx.season_id := by
  induction ms with
  | nil => intro st hist h; exact h
  | cons m rest ih =>
      intro st hist h
      simp only [replay_season_matches]
      exact ih _ _ (process_match_rows_sid db ctx st hist m h)

theorem replay_result_rows_sid (db : Db) (sid : SeasonId) (season : Season)
    (tag : List Char) :
    ∀ e ∈ (replay_result db sid season tag).2, e.season_id = some sid := by
  rw [replay_result]
  rcases resolve_elo_config db season with ⟨k, base, bonus, period, se⟩
  dsimp only
  exact replay_loop_rows_sid db _ _ _ _ (by intro e he; simp at he)

/-- C7: within one season replay, the Rating-History entries produced for
any one player, taken in production order, chain exactly: each entry's
rating-after equals the next entry's rating-before. Moreover, on a
successful engine run the season's rows in the stored ledger are precisely
the produced ones, so the stored ledger of the season chains as well. -/
theorem ledger_continuity (db : Db) (sid : SeasonId) (season : Season)
    (tag : List Char) (p : PlayerId)
    (hdist : ∀ m ∈ season_match_rows db sid, m.player1_id ≠ m.player2_id) :
    Chained (((replay_result db sid season tag).2).filter
      (fun e => e.player_id == p)) ∧
    (∀ db', recalculate_season_elo db sid = .ok db' →
      get_season_by_id db sid = some season →
      derive_elo_version_string season = some tag →
      (season_match_rows db sid).isEmpty = false →
      db'.elo_history.filter
          (fun e => e.season_id == some sid && e.player_id == p)
        = ((replay_result db sid season tag).2).filter
            (fun e => e.player_id == p)) := by
  constructor
  · have hinv : ReplayInv (replay_result db sid season tag).2
        (replay_result db sid season tag).1 := by
      rw [replay_result]
      rcases resolve_elo_config db season with ⟨k, base, bonus, period, se⟩
      dsimp only
      exact replay_loop_inv db _ _ _ _ hdist (init_state_inv db sid se)
    have hi := hinv p
    cases hsp : (replay_result db sid season tag).1 p with
    | none =>
        rw [hsp] at hi
        rw [hi]
        trivial
    | some w =>
        rw [hsp] at hi
        obtain ⟨r, hcf, _⟩ := hi
        exact chainedFrom_chained _ r hcf
  · intro db' hok hs htag hne2
    simp only [recalculate_season_elo, hs, htag, hne2, Bool.false_eq_true,
      if_false, Except.ok.injEq] at hok
    subst hok
    dsimp only
    rw [List.filter_append]
    have hkept : (db.elo_history.filter (fun e => e.season_id != some sid)).filter
        (fun e => e.season_id == some sid && e.player_id == p) = [] := by
      rw [List.filter_eq_nil_iff]
      intro e he
      have h2 := (List.mem_filter.mp he).2
      simp only [bne_iff_ne, ne_eq] at h2
      simp [beq_eq_false_iff_ne.mpr h2]
    rw [hkept, List.nil_append]
    refine List.filter_congr ?_
    intro e he
    simp [replay_result_rows_sid db sid season tag e he]

/-- Witness for C7 at the concrete one-match database, player 1. -/
theorem ledger_continuity_witness :
    (∀ m ∈ season_match_rows exDbReplay 1, m.player1_id ≠ m.player2_id) ∧
    Chained (((replay_result exDbReplay 1 exSeason1 ['S']).2).filter
      (fun e => e.player_id == 1)) :=
  ⟨by decide, (ledger_continuity exDbReplay 1 exSeason1 ['S'] 1 (by decide)).1⟩

theorem recalc_ok_fields (db : Db) (sid : SeasonId) (db' : Db)
    (h : recalculate_season_elo db sid = .ok db') :
    db'.seasons = db.seasons ∧ db'.match_rows = db.match_rows ∧
    db'.games = db.games ∧ db'.players = db.players ∧
    db'.elo_configurations = db.elo_configurations := by
  rw [recalculate_season_elo] at h
  cases hs : get_season_by_id db sid with
  | none => rw [hs] at h; simp at h
  | some season =>
      rw [hs] at h
      dsimp only at h
      cases ht : derive_elo_version_string season with
      | none => rw [ht] at h; simp at h
      | some tag =>
          rw [ht] at h
          dsimp only at h
          by_cases he : (season_match_rows db sid).isEmpty = true
          · rw [if_pos he] at h
            obtain rfl : db = db' := by simpa using h
            exact ⟨rfl, rfl, rfl, rfl, rfl⟩
          · rw [if_neg he] at h
            simp only [Except.ok.injEq] at h
            subst h
            exact ⟨rfl, rfl, rfl, rfl, rfl⟩

theorem recalc_ok_of (db : Db) (sid : SeasonId) (season : Season) (tag : List Char)
    (hs : get_season_by_id db sid = some season)
    (ht : derive_elo_version_string season = some tag) :
    ∃ db', recalculate_season_elo db sid = .ok db' := by
  by_cases he : (season_match_rows db sid).isEmpty = true
  · exact ⟨db, by simp only [recalculate_season_elo, hs, ht, he, if_true]⟩
  · have he' : (season_match_rows db sid).isEmpty = false := by
      revert he; cases (season_match_rows db sid).isEmpty <;> simp
    simp only [recalculate_season_elo, hs, ht, he', Bool.false_eq_true, if_false]
    exact ⟨_, rfl⟩

theorem get_season_by_id_found (db : Db) (x : SeasonId)
    (h : ∃ s ∈ db.seasons, s.id = x) :
    ∃ season, get_season_by_id db x = some season ∧ season ∈ db.seasons := by
  rw [get_season_by_id]
  cases hf : db.seasons.find? (fun s => s.id == x) with
  | none =>
      obtain ⟨s, hmem, hid⟩ := h
      have := List.find?_eq_none.mp hf s hmem
      simp [hid] at this
  | some season => exact ⟨season, rfl, List.mem_of_find?_eq_some hf⟩

theorem recalc_list_ok (ids : List SeasonId) :
    ∀ db : Db,
      (∀ s ∈ db.seasons, (derive_elo_version_string s).isSome = true) →
      (∀ x ∈ ids, ∃ s ∈ db.seasons, s.id = x) →
      ∃ db', recalculate_seasons_list db ids = .ok db' ∧
        db'.seasons = db.seasons ∧ db'.match_rows = db.match_rows := by
  induction ids with
  | nil => intro db _ _; exact ⟨db, rfl, rfl, rfl⟩
  | cons x rest ih =>
      intro db hder hmem
      obtain ⟨season, hget, hseasonmem⟩ :=
        get_season_by_id_found db x (hmem x (List.mem_cons_self _ _))
      obtain ⟨tag, htag⟩ := Option.isSome_iff_exists.mp (hder season hseasonmem)
      obtain ⟨db1, hdb1⟩ := recalc_ok_of db x season tag hget htag
      have hfields := recalc_ok_fields db x db1 hdb1
      obtain ⟨db', hdb', hs', hm'⟩ := ih db1
        (by rw [hfields.1]; exact hder)
        (fun y hy => by rw [hfields.1]; exact hmem y (List.mem_cons_of_mem _ hy))
      refine ⟨db', ?_, by rw [hs', hfields.1], by rw [hm', hfields.2.1]⟩
      rw [recalculate_seasons_list, hdb1]
      exact hdb'

theorem ps_map_season_id (sid : SeasonId) (st : PState) (r : PlayerSeasonRow) :
    (if r.season_id == sid then
      match st r.player_id with
      | some w =>
          { r with
            current_elo := w.elo
            games_played := w.games_played
            wins := w.wins
            losses := w.losses }
      | none => r
    else r).season_id = r.season_id := by
  split
  · cases st r.player_id <;> rfl
  · rfl

theorem recalc_preserves_no_sid (db : Db) (x sid : SeasonId) (db' : Db)
    (hx : x ≠ sid)
    (hok : recalculate_season_elo db x = .ok db')
    (hh : ∀ e ∈ db.elo_history, e.season_id ≠ some sid)
    (hp : ∀ r ∈ db.player_seasons, r.season_id ≠ sid) :
    (∀ e ∈ db'.elo_history, e.season_id ≠ some sid) ∧
    (∀ r ∈ db'.player_seasons, r.season_id ≠ sid) := by
  rw [recalculate_season_elo] at hok
  cases hs : get_season_by_id db x with
  | none => rw [hs] at hok; simp at hok
  | some season =>
      rw [hs] at hok
      dsimp only at hok
      cases ht : derive_elo_version_string season with
      | none => rw [ht] at hok; simp at hok
      | some tag =>
          rw [ht] at hok
          dsimp only at hok
          by_cases he : (season_match_rows db x).isEmpty = true
          · rw [if_pos he] at hok
            obtain rfl : db = db' := by simpa using hok
            exact ⟨hh, hp⟩
          · rw [if_neg he] at hok
            simp only [Except.ok.injEq] at hok
            subst hok
            constructor
            · intro e he'
              dsimp only at he'
              rcases List.mem_append.mp he' with he' | he'
              · exact hh e (List.mem_filter.mp he').1
              · rw [replay_result_rows_sid db x season tag e he']
                intro hcontra
                exact hx (Option.some.inj hcontra)
            · intro r hr
              dsimp only at hr
              obtain ⟨r0, hr0, rfl⟩ := List.mem_map.mp hr
              rw [ps_map_season_id]
              exact hp r0 hr0

theorem recalc_list_preserves_no_sid (ids : List SeasonId) (sid : SeasonId) :
    ∀ db db' : Db, (∀ x ∈ ids, x ≠ sid) →
      recalculate_seasons_list db ids = .ok db' →
      (∀ e ∈ db.elo_history, e.season_id ≠ some sid) →
      (∀ r ∈ db.player_seasons, r.season_id ≠ sid) →
      (∀ e ∈ db'.elo_history, e.season_id ≠ some sid) ∧
      (∀ r ∈ db'.player_seasons, r.season_id ≠ sid) := by
  induction ids with
  | nil =>
      intro db db' _ hok hh hp
      obtain rfl : db = db' := by simpa [recalculate_seasons_list] using hok
      exact ⟨hh, hp⟩
  | cons x rest ih =>
      intro db db' hx hok hh hp
      rw [recalculate_seasons_list] at hok
      cases h1 : recalculate_season_elo db x with
      | error e => rw [h1] at hok; simp at hok
      | ok db1 =>
          rw [h1] at hok
          dsimp only at hok
          have hstep := recalc_preserves_no_sid db x sid db1
            (hx x (List.mem_cons_self _ _)) h1 hh hp
          exact ih db1 db' (fun y hy => hx y (List.mem_cons_of_mem _ hy))
            hok hstep.1 hstep.2

theorem insert_sorted_mem {α : Type} (key : α → Timestamp) (x : α)
    (l : List α) : ∀ y ∈ insert_sorted key x l, y = x ∨ y ∈ l := by
  induction l with
  | nil => intro y hy; simp [insert_sorted] at hy; exact Or.inl hy
  | cons a rest ih =>
      intro y hy
      rw [insert_sorted] at hy
      split at hy
      · rcases List.mem_cons.mp hy with hy | hy
        · exact Or.inr (List.mem_cons.mpr (Or.inl hy))
        · rcases ih y hy with hy | hy
          · exact Or.inl hy
          · exact Or.inr (List.mem_cons.mpr (Or.inr hy))
      · rcases List.mem_cons.mp hy with hy | hy
        · exact Or.inl hy
        · exact Or.inr hy

theorem sort_by_time_mem {α : Type} (key : α → Timestamp) (l : List α) :
    ∀ y ∈ sort_by_time key l, y ∈ l := by
  induction l with
  | nil => intro y hy; simp [sort_by_time] at hy
  | cons a rest ih =>
      intro y hy
      rw [sort_by_time] at hy
      rcases insert_sorted_mem key a _ y hy with hy | hy
      · exact hy ▸ List.mem_cons_self _ _
      · exact List.mem_cons_of_mem _ (ih y hy)

theorem latest_season_before_spec (seasons : List Season) (d : Timestamp) :
    (latest_season_before seasons d = none → ∀ s ∈ seasons, ¬ s.start_date < d) ∧
    (∀ b, latest_season_before seasons d = some b →
      b ∈ seasons ∧ b.start_date < d ∧
      ∀ s ∈ seasons, s.start_date < d → s.start_date ≤ b.start_date) := by
  induction seasons with
  | nil =>
      refine ⟨fun _ s hs => absurd hs (by simp), fun b hb => ?_⟩
      simp [latest_season_before] at hb
  | cons a rest ih =>
      cases hrec : latest_season_before rest d with
      | none =>
          refine ⟨fun h s hs => ?_, fun b hb => ?_⟩
          · simp only [latest_season_before, hrec] at h
            rcases List.mem_cons.mp hs with hs | hs
            · subst hs
              by_cases hat : s.start_date < d
              · simp [hat] at h
              · exact hat
            · exact ih.1 hrec s hs
          · simp only [latest_season_before, hrec] at hb
            by_cases hat : a.start_date < d
            · rw [if_pos hat] at hb
              obtain rfl : a = b := Option.some.inj hb
              refine ⟨List.mem_cons_self _ _, hat, fun s hs hst => ?_⟩
              rcases List.mem_cons.mp hs with hs | hs
              · subst hs; exact le_refl _
              · exact absurd hst (ih.1 hrec s hs)
            · simp [hat] at hb
      | some b0 =>
          have hb0 := ih.2 b0 hrec
          refine ⟨fun h => ?_, fun b hb => ?_⟩
          · simp only [latest_season_before, hrec] at h
            split at h <;> simp at h
          · simp only [latest_season_before, hrec] at hb
            by_cases hcond : a.start_date < d ∧ b0.start_date < a.start_date
            · rw [if_pos hcond] at hb
              obtain rfl : a = b := Option.some.inj hb
              refine ⟨List.mem_cons_self _ _, hcond.1, fun s hs hst => ?_⟩
              rcases List.mem_cons.mp hs with hs | hs
              · subst hs; exact le_refl _
              · exact le_of_lt (lt_of_le_of_lt (hb0.2.2 s hs hst) hcond.2)
            · rw [if_neg hcond] at hb
              obtain rfl : b0 = b := Option.some.inj hb
              refine ⟨List.mem_cons_of_mem _ hb0.1, hb0.2.1, fun s hs hst => ?_⟩
              rcases List.mem_cons.mp hs with hs | hs
              · subst hs
                by_contra hlt
                exact hcond ⟨hst, lt_of_not_le hlt⟩
              · exact hb0.2.2 s hs hst

theorem recalc_from_after_delete (db2 : Db) (sid : SeasonId) (d : Timestamp)
    (hder2 : ∀ s ∈ db2.seasons, (derive_elo_version_string s).isSome = true)
    (hP1 : ∀ s ∈ db2.seasons, s.id ≠ sid)
    (hP2 : ∀ e ∈ db2.elo_history, e.season_id ≠ some sid)
    (hP3 : ∀ r ∈ db2.player_seasons, r.season_id ≠ sid) :
    ∃ db', recalculate_seasons_from db2 d = .ok db' ∧
      (∀ s ∈ db'.seasons, s.id ≠ sid) ∧
      (∀ r ∈ db'.player_seasons, r.season_id ≠ sid) ∧
      (∀ e ∈ db'.elo_history, e.season_id ≠ some sid) ∧
      db'.match_rows = db2.match_rows := by
  show ∃ db', recalculate_seasons_list db2
      ((sort_by_time Season.start_date
        (db2.seasons.filter (fun s => d ≤ s.start_date))).map Season.id)
        = .ok db' ∧ _
  have hmem : ∀ x ∈ (sort_by_time Season.start_date
      (db2.seasons.filter (fun s => d ≤ s.start_date))).map Season.id,
      ∃ s ∈ db2.seasons, s.id = x := by
    intro x hx
    obtain ⟨s, hsmem, rfl⟩ := List.mem_map.mp hx
    exact ⟨s, (List.mem_filter.mp (sort_by_time_mem _ _ s hsmem)).1, rfl⟩
  obtain ⟨db', hok, hseasons, hmatches⟩ := recalc_list_ok _ db2 hder2 hmem
  have hxne : ∀ x ∈ (sort_by_time Season.start_date
      (db2.seasons.filter (fun s => d ≤ s.start_date))).map Season.id,
      x ≠ sid := by
    intro x hx
    obtain ⟨s, hsmem, hid⟩ := hmem x hx
    exact hid ▸ hP1 s hsmem
  have hpres := recalc_list_preserves_no_sid _ sid db2 db' hxne hok hP2 hP3
  exact ⟨db', hok, by rw [hseasons]; exact hP1, hpres.2, hpres.1, hmatches⟩

/-- C8: season deletion. When no season starts earlier than the target and
the target owns at least one event, the operation aborts with a conflict
error (nothing is committed; in this embedding an error returns no state).
Otherwise the target's events are reassigned to the chronologically nearest
preceding season (the one of maximal start date strictly before the
target's), its ledger, Participation and season rows are deleted within one
transaction, and afterwards the preceding season and every season starting
at or after it are recalculated; the successful final state carries no
trace of the deleted season. -/
theorem delete_season_spec (db : Db) (sid : SeasonId) (season : Season)
    (hs : get_season_by_id db sid = some season)
    (hder : ∀ s ∈ db.seasons, (derive_elo_version_string s).isSome = true) :
    ((∀ s ∈ db.seasons, ¬ s.start_date < season.start_date) →
      (db.match_rows.filter (fun m => m.season_id == some sid)).length ≠ 0 →
      ∃ msg, delete_season db sid = .error msg) ∧
    (∀ target, latest_season_before db.seasons season.start_date = some target →
      target ∈ db.seasons ∧ target.start_date < season.start_date ∧
      (∀ s ∈ db.seasons, s.start_date < season.start_date →
        s.start_date ≤ target.start_date) ∧
      delete_season db sid
        = recalculate_seasons_from (delete_season_tx db sid target)
            target.start_date ∧
      (∃ db', delete_season db sid = .ok db' ∧
        (∀ s ∈ db'.seasons, s.id ≠ sid) ∧
        (∀ r ∈ db'.player_seasons, r.season_id ≠ sid) ∧
        (∀ e ∈ db'.elo_history, e.season_id ≠ some sid) ∧
        db'.match_rows = db.match_rows.map (fun m =>
          if m.season_id == some sid then { m with season_id := some target.id }
          else m))) ∧
    ((∀ s ∈ db.seasons, ¬ s.start_date < season.start_date) →
      (db.match_rows.filter (fun m => m.season_id == some sid)).length = 0 →
      ∃ db', delete_season db sid = .ok db' ∧
        (∀ s ∈ db'.seasons, s.id ≠ sid) ∧
        (∀ r ∈ db'.player_seasons, r.season_id ≠ sid) ∧
        (∀ e ∈ db'.elo_history, e.season_id ≠ some sid)) := by
  refine ⟨?_, ?_, ?_⟩
  · intro hnoprev hcount
    have hlbnone : latest_season_before db.seasons season.start_date = none := by
      cases hl : latest_season_before db.seasons season.start_date with
      | none => rfl
      | some b =>
          have hb := (latest_season_before_spec db.seasons season.start_date).2 b hl
          exact absurd hb.2.1 (hnoprev b hb.1)
    simp only [delete_season, hs, hlbnone]
    rw [if_pos (Nat.pos_of_ne_zero hcount)]
    exact ⟨_, rfl⟩
  · intro target hlb
    have hspec := (latest_season_before_spec db.seasons season.start_date).2
      target hlb
    have heq : delete_season db sid
        = recalculate_seasons_from (delete_season_tx db sid target)
            target.start_date := by
      simp only [delete_season, hs, hlb]
    refine ⟨hspec.1, hspec.2.1, hspec.2.2, heq, ?_⟩
    have hder2 : ∀ s ∈ (delete_season_tx db sid target).seasons,
        (derive_elo_version_string s).isSome = true := by
      intro s hsmem
      exact hder s (List.mem_filter.mp hsmem).1
    have hP1 : ∀ s ∈ (delete_season_tx db sid target).seasons, s.id ≠ sid := by
      intro s hsmem
      have := (List.mem_filter.mp hsmem).2
      simpa [bne_iff_ne] using this
    have hP2 : ∀ e ∈ (delete_season_tx db sid target).elo_history,
        e.season_id ≠ some sid := by
      intro e hemem
      have := (List.mem_filter.mp hemem).2
      simpa [bne_iff_ne] using this
    have hP3 : ∀ r ∈ (delete_season_tx db sid target).player_seasons,
        r.season_id ≠ sid := by
      intro r hrmem
      have := (List.mem_filter.mp hrmem).2
      simpa [bne_iff_ne] using this
    obtain ⟨db', hok, h1, h2, h3, h4⟩ :=
      recalc_from_after_delete (delete_season_tx db sid target) sid
        target.start_date hder2 hP1 hP2 hP3
    exact ⟨db', by rw [heq]; exact hok, h1, h2, h3, h4⟩
  · intro hnoprev hcount
    have hlbnone : latest_season_before db.seasons season.start_date = none := by
      cases hl : latest_season_before db.seasons season.start_date with
      | none => rfl
      | some b =>
          have hb := (latest_season_before_spec db.seasons season.start_date).2 b hl
          exact absurd hb.2.1 (hnoprev b hb.1)
    have heq : delete_season db sid
        = recalculate_seasons_from (delete_season_tx_no_target db sid)
            season.start_date := by
      simp only [delete_season, hs, hlbnone]
      rw [if_neg (by rw [hcount]; exact lt_irrefl 0)]
    have hder2 : ∀ s ∈ (delete_season_tx_no_target db sid).seasons,
        (derive_elo_version_string s).isSome = true := by
      intro s hsmem
      exact hder s (List.mem_filter.mp hsmem).1
    have hP1 : ∀ s ∈ (delete_season_tx_no_target db sid).seasons, s.id ≠ sid := by
      intro s hsmem
      have := (List.mem_filter.mp hsmem).2
      simpa [bne_iff_ne] using this
    have hP2 : ∀ e ∈ (delete_season_tx_no_target db sid).elo_history,
        e.season_id ≠ some sid := by
      intro e hemem
      have := (List.mem_filter.mp hemem).2
      simpa [bne_iff_ne] using this
    have hP3 : ∀ r ∈ (delete_season_tx_no_target db sid).player_seasons,
        r.season_id ≠ sid := by
      intro r hrmem
      have := (List.mem_filter.mp hrmem).2
      simpa [bne_iff_ne] using this
    obtain ⟨db', hok, h1, h2, h3, _⟩ :=
      recalc_from_after_delete (delete_season_tx_no_target db sid) sid
        season.start_date hder2 hP1 hP2 hP3
    exact ⟨db', by rw [heq]; exact hok, h1, h2, h3⟩

/-- Witness for C8 at a concrete two-season database, deleting the later
season. -/
theorem delete_season_spec_witness :
    (get_season_by_id exDbTwoSeasons 2 = some exSeason2 ∧
      (∀ s ∈ exDbTwoSeasons.seasons,
        (derive_elo_version_string s).isSome = true) ∧
      latest_season_before exDbTwoSeasons.seasons exSeason2.start_date
        = some exSeason1) ∧
    (exSeason1 ∈ exDbTwoSeasons.seasons ∧
      exSeason1.start_date < exSeason2.start_date ∧
      (∀ s ∈ exDbTwoSeasons.seasons,
        s.start_date < exSeason2.start_date →
        s.start_date ≤ exSeason1.start_date) ∧
      delete_season exDbTwoSeasons 2
        = recalculate_seasons_from (delete_season_tx exDbTwoSeasons 2 exSeason1)
            exSeason1.start_date ∧
      (∃ db', delete_season exDbTwoSeasons 2 = .ok db' ∧
        (∀ s ∈ db'.seasons, s.id ≠ 2) ∧
        (∀ r ∈ db'.player_seasons, r.season_id ≠ 2) ∧
        (∀ e ∈ db'.elo_history, e.season_id ≠ some 2) ∧
        db'.match_rows = exDbTwoSeasons.match_rows.map (fun m =>
          if m.season_id == some 2 then { m with season_id := some exSeason1.id }
          else m))) :=
  ⟨⟨rfl, by decide, rfl⟩,
    (delete_season_spec exDbTwoSeasons 2 exSeason2 rfl (by decide)).2.1
      exSeason1 rfl⟩

/-- C3: a season-creation request in which some but not all of the dynamic-K
triple are present is rejected by the handler's validation pipeline with an
error and the database returned untouched — the partial configuration never
reaches any insert or update (the triple-completeness check sits in
src/backend/src/handlers/seasons.rs before any mutation; every validation
branch preceding it also rejects without writing). -/
theorem partial_dynamic_k_rejected (db : Db) (req : CreateSeasonRequest)
    (admin_id new_season_id : Nat)
    (hsome : (req.base_k_factor.isSome || req.new_player_k_bonus.isSome
      || req.new_player_bonus_period.isSome) = true)
    (hnotall : (req.base_k_factor.isSome && req.new_player_k_bonus.isSome
      && req.new_player_bonus_period.isSome) = false) :
    (handler_create_season db req admin_id new_season_id).1 = db ∧
    ∃ msg, (handler_create_season db req admin_id new_season_id).2
      = .error msg := by
  have hcond : ((req.base_k_factor.isSome || req.new_player_k_bonus.isSome
      || req.new_player_bonus_period.isSome)
      && (!req.base_k_factor.isSome || !req.new_player_k_bonus.isSome
      || !req.new_player_bonus_period.isSome)) = true := by
    cases hA : req.base_k_factor.isSome <;>
      cases hB : req.new_player_k_bonus.isSome <;>
      cases hC : req.new_player_bonus_period.isSome <;>
      simp_all
  have hval : ∃ msg, validate_create_season_request db req = some msg := by
    rw [validate_create_season_request, if_pos hcond]
    split
    · exact ⟨_, rfl⟩
    split
    · exact ⟨_, rfl⟩
    split
    · exact ⟨_, rfl⟩
    split
    · exact ⟨_, rfl⟩
    exact ⟨_, rfl⟩
  obtain ⟨msg, hmsg⟩ := hval
  rw [handler_create_season, hmsg]
  exact ⟨rfl, msg, rfl⟩

/-- Witness for C3 at a concrete request carrying only a base K-factor. -/
theorem partial_dynamic_k_rejected_witness :
    ((exReqPartial.base_k_factor.isSome || exReqPartial.new_player_k_bonus.isSome
      || exReqPartial.new_player_bonus_period.isSome) = true ∧
     (exReqPartial.base_k_factor.isSome && exReqPartial.new_player_k_bonus.isSome
      && exReqPartial.new_player_bonus_period.isSome) = false) ∧
    ((handler_create_season exDbAssign exReqPartial 1 2).1 = exDbAssign ∧
      ∃ msg, (handler_create_season exDbAssign exReqPartial 1 2).2
        = .error msg) :=
  ⟨⟨rfl, rfl⟩, partial_dynamic_k_rejected exDbAssign exReqPartial 1 2 rfl rfl⟩

end RatingLedger
